import Mathlib

/-! flutter-mpv: the Linux mpv player plugin.

A shallow embedding of `linux/runner/mpv_player_plugin.c`.

* The process state (`g_player`, the GLib idle sources, the source-id counter) is the
  record `World`; every C function becomes a function on it.
* Every call that leaves the plugin (decode engine, presentation host, GLib locking,
  allocation, scheduling) is appended to `World.trace`, in program order.
* The decode engine and the host answer through an `Env`: a function from the calls made so
  far (the answered call last) to a `Reply`.  Nothing is assumed about it.
* `int` fields are `Int` values stored through `wrap32`; `uint32_t`, `guint` and `size_t`
  values are `Nat` values reduced modulo `2^32`, `2^32` and `2^64`.
* A pointer to the player (`user_data`, `cb_ctx`) is the identity of its allocation; a
  callback run with the pointer of a player that was freed, and an index outside the pixel
  block, are recorded in `World.faults`.
* Printing (`g_print`) and the status timer callback, which only reads engine properties
  and prints them, are left out.
-/

namespace MpvPlugin

/-! ## Machine integers -/

/-- Conversion to `int` (two's complement, 32 bits). -/
def wrap32 (x : Int) : Int := (x + 2147483648) % 4294967296 - 2147483648

/-- Conversion to `uint32_t` / `guint`. -/
def toU32 (x : Int) : Nat := (x % 4294967296).toNat

/-- Conversion to `size_t` (64 bits). -/
def toSize (x : Int) : Nat := (x % 18446744073709551616).toNat

/-! ## External calls and their answers -/

/-- The two functions the plugin hands to `g_idle_add`. -/
inductive IdleFn where
  | try_render_frame
  | notify_frame_available
  deriving DecidableEq, Repr

/-- Calls that leave the plugin, as recorded in the trace. -/
inductive Ev where
  | mpv_create
  | mpv_set_option_string (name value : String)
  | mpv_initialize_handle
  | mpv_destroy
  | mpv_set_property_string (name value : String)
  | mpv_get_property (name : String)
  | mpv_command (args : List String)
  | mpv_render_context_create
  | mpv_render_context_set_update_callback
  | mpv_render_context_render (sw_w sw_h stride : Int)
  | mpv_render_context_free
  | fl_texture_registrar_register_texture
  | fl_texture_registrar_mark_texture_frame_available
  | g_object_unref_texture
  | g_mutex_lock
  | g_mutex_unlock
  | g_idle_add (fn : IdleFn)
  | g_timeout_add (interval : Nat)
  | g_source_remove (id : Nat)
  | g_usleep (us : Nat)
  | g_malloc0 (size : Nat)
  | g_free_pixels
  | g_free_player
  deriving DecidableEq, Repr

/-- Answer of the engine or the host to one call: return code, `int64_t` out-value,
string out-value, returned pointer, and the bytes a render wrote. -/
structure Reply where
  rc : Int
  ival : Int
  sval : String
  ptr : Option Nat
  bytes : List Nat
  deriving DecidableEq, Repr

/-- The environment: the answer to the last call of a trace. -/
abbrev Env := List Ev → Reply

/-- Memory errors of the C text. -/
inductive Fault where
  | oob_read (index : Int)
  | oob_write (index : Int)
  | dangling_player
  | null_texture
  deriving DecidableEq, Repr

/-! ## Data model -/

/-- The struct `MPVPixelTexture` (the mutex is represented by its lock/unlock calls). -/
structure MPVPixelTexture where
  pixels : Option (List Nat)
  width : Int
  height : Int
  frame_ready : Bool
  deriving DecidableEq, Repr

/-- The struct `MPVPlayer`; `addr` is the identity of the `g_new0` allocation. -/
structure MPVPlayer where
  addr : Nat
  mpv : Option Nat
  mpv_gl : Option Nat
  texture : Option MPVPixelTexture
  registrar : Option Nat
  texture_id : Int
  timer_id : Nat
  frame_w : Int
  frame_h : Int
  initialized : Bool
  render_context_ready : Bool
  frame_count : Nat
  render_requested : Bool
  deriving DecidableEq, Repr

/-- An idle source: the function and its `user_data` pointer. -/
structure IdleSource where
  fn : IdleFn
  user_data : Option Nat
  deriving DecidableEq, Repr

/-- The process state. -/
structure World where
  g_player : Option MPVPlayer
  idle : List IdleSource
  trace : List Ev
  faults : List Fault
  next_source : Nat
  allocs : Nat
  deriving DecidableEq, Repr

/-- State of the process when the plugin is registered. -/
def World.boot : World :=
  { g_player := none, idle := [], trace := [], faults := [], next_source := 0, allocs := 0 }

/-- The `FlMethodResponse` values the handlers build. -/
inductive FlMethodResponse where
  | success (result : Option Int)
  | error (code message : String)
  | not_implemented
  deriving DecidableEq, Repr

/-- The argument map of a method call: string keys, string values. -/
abbrev FlArgs := List (String × String)

/-- The library function `fl_value_lookup_string` on the argument map. -/
def fl_value_lookup_string (args : FlArgs) (key : String) : Option String :=
  (args.find? (fun kv => kv.1 == key)).map (fun kv => kv.2)

/-- The test `strstr(hay, needle) != NULL`. -/
def strstr (hay needle : String) : Bool :=
  hay.data.tails.any (fun t => needle.data.isPrefixOf t)

/-- What a pointer to a player refers to now. -/
inductive Deref where
  | null
  | dangling
  | live (p : MPVPlayer)

/-- Resolution of a `user_data` / `cb_ctx` pointer against the live player. -/
def World.deref (w : World) (ptr : Option Nat) : Deref :=
  match ptr with
  | none => .null
  | some a =>
    match w.g_player with
    | some p => if p.addr = a then .live p else .dangling
    | none => .dangling

/-- The GLib call `g_idle_add`: a new source at the end of the idle queue. -/
def World.g_idle_add (w : World) (fn : IdleFn) (user_data : Option Nat) : World :=
  { w with idle := w.idle ++ [⟨fn, user_data⟩],
           trace := w.trace ++ [Ev.g_idle_add fn],
           next_source := w.next_source + 1 }

/-! ## The pixel texture -/

/-- The 1x1 opaque black fallback pixel of `mpv_pixel_texture_copy_pixels`. -/
def black : List Nat := [0, 0, 0, 255]

/-- Out-parameters and return value of `mpv_pixel_texture_copy_pixels`. -/
structure CopyResult where
  ok : Bool
  out_buffer : List Nat
  width : Nat
  height : Nat
  deriving DecidableEq, Repr

/-- The texture's `copy_pixels` callback: result and the calls it makes. -/
def mpv_pixel_texture_copy_pixels (t : MPVPixelTexture) : CopyResult × List Ev :=
  match t.pixels with
  | none => (⟨true, black, 1, 1⟩, [Ev.g_mutex_lock, Ev.g_mutex_unlock])
  | some blk =>
    if !t.frame_ready then (⟨true, black, 1, 1⟩, [Ev.g_mutex_lock, Ev.g_mutex_unlock])
    else (⟨true, blk, toU32 t.width, toU32 t.height⟩, [Ev.g_mutex_lock, Ev.g_mutex_unlock])

/-- The instance initialiser `mpv_pixel_texture_init`. -/
def mpv_pixel_texture_init : MPVPixelTexture :=
  { pixels := none, width := 1920, height := 1080, frame_ready := false }

/-- The constructor `mpv_pixel_texture_new`: the texture and the allocation it makes. -/
def mpv_pixel_texture_new (w h : Int) : MPVPixelTexture × List Ev :=
  let t := mpv_pixel_texture_init
  let buffer_size := toSize (w * h * 4)
  ({ t with width := wrap32 w, height := wrap32 h,
            pixels := some (List.replicate buffer_size 0), frame_ready := false },
   [Ev.g_malloc0 buffer_size])

/-! ## The render scheduler and the render pass -/

/-- The update callback `render_update_callback`, run by the engine with `cb_ctx`. -/
def render_update_callback (cb_ctx : Option Nat) (w : World) : World :=
  match w.deref cb_ctx with
  | .null => w
  | .dangling => { w with faults := w.faults ++ [Fault.dangling_player] }
  | .live p =>
    if p.texture.isNone || !p.render_context_ready then w
    else if !p.render_requested then
      World.g_idle_add { w with g_player := some { p with render_requested := true } }
        IdleFn.try_render_frame (some p.addr)
    else w

/-- The idle callback `notify_frame_available`; the result is the `gboolean` it returns
(`false` is `G_SOURCE_REMOVE`). -/
def notify_frame_available (user_data : Option Nat) (w : World) : Bool × World :=
  match w.deref user_data with
  | .null => (false, w)
  | .dangling => (false, { w with faults := w.faults ++ [Fault.dangling_player] })
  | .live p =>
    if p.registrar.isSome && p.texture.isSome then
      (false, { w with
        g_player := some { p with frame_count := (p.frame_count + 1) % 4294967296 },
        trace := w.trace ++ [Ev.fl_texture_registrar_mark_texture_frame_available] })
    else (false, w)

/-- The write of the engine's render into the block: it replaces bytes (`uint8_t`) of the
block, from the start, and never changes the block's length. -/
def blit : List Nat → List Nat → List Nat
  | [], old => old
  | _ :: _, [] => []
  | b :: bs, _ :: old => b % 256 :: blit bs old

/-- The read `pixels[i]`: the byte, or a fault (and 0) outside the block. -/
def peek (px : List Nat) (i : Int) : Nat × List Fault :=
  if 0 ≤ i ∧ i < px.length then (px.getD i.toNat 0, []) else (0, [Fault.oob_read i])

/-- The write `pixels[i] = v`: the new block, or a fault outside the block. -/
def poke (st : List Nat × List Fault) (i : Int) (v : Nat) : List Nat × List Fault :=
  if 0 ≤ i ∧ i < st.1.length then (st.1.set i.toNat v, st.2)
  else (st.1, st.2 ++ [Fault.oob_write i])

/-- The loop `for (i = 0; i < 1000; i++) checksum += pixels[i]` on a `uint32_t`. -/
def checksum_loop (px : List Nat) : Nat × List Fault :=
  (List.range 1000).foldl
    (fun acc i => ((acc.1 + (peek px i).1) % 4294967296, acc.2 ++ (peek px i).2)) (0, [])

/-- Body of the overlay loops at `(y, x)`: four writes at `idx = (y * frame_w + x) * 4`. -/
def overlay_cell (frame_w : Int) (st : List Nat × List Fault) (y x : Nat) :
    List Nat × List Fault :=
  let idx := wrap32 ((y * frame_w + x) * 4)
  poke (poke (poke (poke st (wrap32 (idx + 0)) 255) (wrap32 (idx + 1)) 0)
    (wrap32 (idx + 2)) 0) (wrap32 (idx + 3)) 255

/-- The test-pattern overlay: `y` and `x` run over `0..99`. -/
def overlay (frame_w : Int) (st : List Nat × List Fault) : List Nat × List Fault :=
  (List.range 100).foldl
    (fun s y => (List.range 100).foldl (fun s2 x => overlay_cell frame_w s2 y x) s) st

/-- The success branch of `try_render_frame` on the block: checksum, then the overlay when
the checksum is below 1000. -/
def sanity_check (frame_w : Int) (px : List Nat) : List Nat × List Fault :=
  let c := checksum_loop px
  if c.1 < 1000 then overlay frame_w (px, c.2) else (px, c.2)

/-- The idle callback `try_render_frame`; the result is the `gboolean` it returns (`false`
is `G_SOURCE_REMOVE`). Whatever the engine's render wrote is in the block afterwards, also
when it reports an error. -/
def try_render_frame (env : Env) (user_data : Option Nat) (w : World) : Bool × World :=
  match w.deref user_data with
  | .null => (false, w)
  | .dangling => (false, { w with faults := w.faults ++ [Fault.dangling_player] })
  | .live p =>
    match p.texture with
    | none => (false, w)
    | some t =>
      if p.mpv_gl.isNone || !p.render_context_ready then (false, w)
      else
        let stride := wrap32 (p.frame_w * 4)
        let tr1 := w.trace ++ [Ev.g_mutex_lock,
          Ev.mpv_render_context_render p.frame_w p.frame_h stride]
        let r := env tr1
        let px := blit r.bytes (t.pixels.getD [])
        if 0 ≤ r.rc then
          let s := sanity_check p.frame_w px
          let t2 := { t with pixels := t.pixels.map (fun _ => s.1), frame_ready := true }
          let w2 := World.g_idle_add
            { w with g_player := some { p with render_requested := false, texture := some t2 },
                     trace := tr1, faults := w.faults ++ s.2 }
            IdleFn.notify_frame_available (some p.addr)
          (false, { w2 with trace := w2.trace ++ [Ev.g_mutex_unlock] })
        else
          let t2 := { t with pixels := t.pixels.map (fun _ => px) }
          (false, { w with
            g_player := some { p with render_requested := false, texture := some t2 },
            trace := tr1 ++ [Ev.g_mutex_unlock] })

/-- One turn of the GLib main loop: the idle source at position `i` is dispatched, and
removed unless its callback returns `G_SOURCE_CONTINUE`. -/
def dispatch_idle (env : Env) (i : Nat) (w : World) : World :=
  match w.idle[i]? with
  | none => w
  | some src =>
    let w1 := { w with idle := w.idle.eraseIdx i }
    let r := match src.fn with
      | .try_render_frame => try_render_frame env src.user_data w1
      | .notify_frame_available => notify_frame_available src.user_data w1
    if r.1 then { r.2 with idle := r.2.idle ++ [src] } else r.2

/-! ## The session controller -/

/-- The key `track-list/<i>/type` built by `snprintf`. -/
def track_key (i : Nat) : String := "track-list/" ++ toString i ++ "/type"

/-- The track-printing loop of `init_mpv_render_context`: one property read per track,
`n` tracks left, the next one being `i`. -/
def track_print : Nat → Nat → List Ev → List Ev
  | 0, _, tr => tr
  | n + 1, i, tr => track_print n (i + 1) (tr ++ [Ev.mpv_get_property (track_key i)])

/-- The calls of `init_mpv_render_context` up to and including
`mpv_render_context_create`: four property writes, the track count, one read per track. -/
def render_context_calls (env : Env) (tr : List Ev) : List Ev :=
  let tr1 := tr ++ [Ev.mpv_set_property_string "vo" "null",
    Ev.mpv_set_property_string "hwdec" "no",
    Ev.mpv_set_property_string "vd-lavc-dr" "no",
    Ev.mpv_set_property_string "keep-open" "yes"]
  let tr2 := tr1 ++ [Ev.mpv_get_property "track-list/count"]
  let track_count : Int := if 0 ≤ (env tr2).rc then (env tr2).ival else 0
  let tr3 := track_print track_count.toNat 0 tr2
  tr3 ++ [Ev.mpv_render_context_create]

/-- The function `init_mpv_render_context` on the player and the trace. The engine leaves
`mpv_gl` NULL when `mpv_render_context_create` fails and sets it to a context when it
succeeds. -/
def init_mpv_render_context (env : Env) (p : MPVPlayer) (tr : List Ev) :
    MPVPlayer × List Ev :=
  if p.render_context_ready then (p, tr)
  else
    let tr4 := render_context_calls env tr
    if (env tr4).rc < 0 then ({ p with mpv_gl := none }, tr4)
    else
      ({ p with mpv_gl := some ((env tr4).ptr.getD 0), render_context_ready := true },
       tr4 ++ [Ev.mpv_render_context_set_update_callback])

/-- The handler `method_init`. -/
def method_init (env : Env) (registrar : Option Nat) (w : World) :
    FlMethodResponse × World :=
  match w.g_player with
  | some _ => (.error "ALREADY" "already initialized", w)
  | none =>
    let tn := mpv_pixel_texture_new 1920 1080
    let tr1 := w.trace ++ tn.2 ++ [Ev.fl_texture_registrar_register_texture]
    let texture_id := (env tr1).ival
    let tr2 := tr1 ++ [Ev.mpv_create]
    match (env tr2).ptr with
    | none =>
      (.error "MPV_CREATE" "mpv_create failed",
       { w with trace := tr2 ++ [Ev.g_free_player], allocs := w.allocs + 1 })
    | some h =>
      let tr3 := tr2 ++ [Ev.mpv_set_option_string "config" "yes",
        Ev.mpv_set_option_string "input-default-bindings" "yes",
        Ev.mpv_set_option_string "force-window" "yes",
        Ev.mpv_set_option_string "msg-level" "all=v",
        Ev.mpv_initialize_handle]
      if (env tr3).rc < 0 then
        (.error "MPV_INIT" "mpv_initialize failed",
         { w with trace := tr3 ++ [Ev.mpv_destroy, Ev.g_free_player],
                  allocs := w.allocs + 1 })
      else
        let p : MPVPlayer :=
          { addr := w.allocs, mpv := some h, mpv_gl := none, texture := some tn.1,
            registrar := registrar, texture_id := texture_id,
            timer_id := w.next_source + 1, frame_w := 1920, frame_h := 1080,
            initialized := true, render_context_ready := false, frame_count := 0,
            render_requested := false }
        (.success (some texture_id),
         { w with g_player := some p, trace := tr3 ++ [Ev.g_timeout_add 33],
                  next_source := w.next_source + 1, allocs := w.allocs + 1 })

/-- The resolution query and buffer resize of `method_load`. -/
def load_resize (env : Env) (p : MPVPlayer) (tr : List Ev) (fl : List Fault) :
    MPVPlayer × List Ev × List Fault :=
  let trw := tr ++ [Ev.mpv_get_property "width"]
  if (env trw).rc < 0 then (p, trw, fl)
  else
    let w := (env trw).ival
    let trh := trw ++ [Ev.mpv_get_property "height"]
    let h := (env trh).ival
    if 0 ≤ (env trh).rc ∧ 0 < w ∧ 0 < h then
      if w ≠ p.frame_w ∨ h ≠ p.frame_h then
        match p.texture with
        | none => (p, trh, fl ++ [Fault.null_texture])
        | some t =>
          let buffer_size := toSize (w * h * 4)
          ({ p with
               texture := some { t with width := wrap32 w, height := wrap32 h,
                                        pixels := some (List.replicate buffer_size 0) },
               frame_w := wrap32 w, frame_h := wrap32 h },
           trh ++ [Ev.g_mutex_lock, Ev.g_free_pixels, Ev.g_malloc0 buffer_size,
             Ev.g_mutex_unlock],
           fl)
      else (p, trh, fl)
    else (p, trh, fl)

/-- The inner loop of the video-track poll: `n` tracks left, the next one being `i`; the
flag is `found_video`. -/
def track_scan (env : Env) : Nat → Nat → List Ev → Bool → List Ev × Bool
  | 0, _, tr, found => (tr, found)
  | n + 1, i, tr, found =>
    let tr1 := tr ++ [Ev.mpv_get_property (track_key i)]
    let found1 := if 0 ≤ (env tr1).rc ∧ (env tr1).sval = "video" then true else found
    track_scan env n (i + 1) tr1 found1

/-- The poll `for (tries = 0; tries < 50 && !found_video; tries++)`, with `n` tries left. -/
def poll_video (env : Env) : Nat → List Ev → List Ev × Bool
  | 0, tr => (tr, false)
  | n + 1, tr =>
    let tr1 := tr ++ [Ev.mpv_get_property "track-list/count"]
    let s := if 0 ≤ (env tr1).rc then track_scan env (env tr1).ival.toNat 0 tr1 false
             else (tr1, false)
    if s.2 then (s.1, true) else poll_video env n (s.1 ++ [Ev.g_usleep 100000])

/-- The part of `method_load` that follows an accepted `loadfile` command: the resize, the
render context, the poll for a video track, and the render context again when one was
found. -/
def load_finish (env : Env) (p : MPVPlayer) (tr : List Ev) (fl : List Fault) :
    MPVPlayer × List Ev × List Fault :=
  let a := load_resize env p tr fl
  let b := init_mpv_render_context env a.1 a.2.1
  let c := poll_video env 50 b.2
  let d := if c.2 then init_mpv_render_context env b.1 c.1 else (b.1, c.1)
  (d.1, d.2, a.2.2)

/-- The HLS-specific configuration of `method_load`, applied when the URL contains
`.m3u8`. -/
def hls_tuning (url : String) (tr : List Ev) : List Ev :=
  if strstr url ".m3u8" then
    tr ++ [Ev.mpv_set_property_string "hls-bitrate" "max",
      Ev.mpv_set_property_string "cache" "yes",
      Ev.mpv_set_property_string "demuxer-max-bytes" "50M"]
  else tr

/-- The handler `method_load`. -/
def method_load (env : Env) (args : FlArgs) (w : World) : FlMethodResponse × World :=
  match w.g_player with
  | none => (.error "NOT_INIT" "player not init", w)
  | some p =>
    if p.mpv.isNone then (.error "NOT_INIT" "player not init", w)
    else
      match fl_value_lookup_string args "url" with
      | none => (.error "ARG" "missing url", w)
      | some url =>
        let tr2 := hls_tuning url w.trace ++ [Ev.mpv_command ["loadfile", url]]
        if (env tr2).rc < 0 then
          (.error "LOAD" "mpv load failed", { w with trace := tr2 })
        else
          let r := load_finish env p tr2 w.faults
          (.success none, { w with g_player := some r.1, trace := r.2.1, faults := r.2.2 })

/-- The handler `method_play`. -/
def method_play (w : World) : FlMethodResponse × World :=
  match w.g_player with
  | none => (.error "NOT_INIT" "player not init", w)
  | some p =>
    if p.mpv.isNone then (.error "NOT_INIT" "player not init", w)
    else (.success none, { w with trace := w.trace ++ [Ev.mpv_set_property_string "pause" "no"] })

/-- The handler `method_pause`. -/
def method_pause (w : World) : FlMethodResponse × World :=
  match w.g_player with
  | none => (.success none, w)
  | some p =>
    if p.mpv.isNone then (.success none, w)
    else (.success none, { w with trace := w.trace ++ [Ev.mpv_set_property_string "pause" "yes"] })

/-- The calls `method_dispose` makes on a player, in program order. -/
def dispose_calls (p : MPVPlayer) : List Ev :=
  (if p.timer_id ≠ 0 then [Ev.g_source_remove p.timer_id] else []) ++
  (if p.mpv_gl.isSome then [Ev.mpv_render_context_free] else []) ++
  (if p.mpv.isSome then [Ev.mpv_destroy] else []) ++
  (if p.texture.isSome then [Ev.g_object_unref_texture] else []) ++
  [Ev.g_free_player]

/-- The handler `method_dispose`. -/
def method_dispose (w : World) : FlMethodResponse × World :=
  match w.g_player with
  | none => (.success none, w)
  | some p => (.success none, { w with g_player := none, trace := w.trace ++ dispose_calls p })

/-- The dispatcher `method_call_cb`: the response handed to `fl_method_call_respond`. -/
def method_call_cb (env : Env) (registrar : Option Nat) (method : String) (args : FlArgs)
    (w : World) : FlMethodResponse × World :=
  if method = "init" then method_init env registrar w
  else if method = "load" then method_load env args w
  else if method = "play" then method_play w
  else if method = "pause" then method_pause w
  else if method = "dispose" then method_dispose w
  else (.not_implemented, w)

/-! ## Executions -/

/-- What can happen to the process: a method call from the controlling side, an update
callback from the engine, a turn of the main loop, a pixel request from the host. -/
inductive Event where
  | call (registrar : Option Nat) (method : String) (args : FlArgs)
  | decode_signal (cb_ctx : Option Nat)
  | run_idle (i : Nat)
  | copy_pixels
  deriving DecidableEq, Repr

/-- One event. -/
def step (env : Env) (w : World) : Event → World
  | .call registrar method args => (method_call_cb env registrar method args w).2
  | .decode_signal cb_ctx => render_update_callback cb_ctx w
  | .run_idle i => dispatch_idle env i w
  | .copy_pixels =>
    match w.g_player with
    | some p =>
      match p.texture with
      | some t => { w with trace := w.trace ++ (mpv_pixel_texture_copy_pixels t).2 }
      | none => w
    | none => w

/-- A sequence of events, in order. -/
def run (env : Env) (w : World) (es : List Event) : World := es.foldl (step env) w

/-! ## Observations used by the properties -/

/-- Number of render tasks enqueued and not yet run. -/
def pending_renders (w : World) : Nat :=
  w.idle.countP (fun s => s.fn == IdleFn.try_render_frame)

/-- Number of notify tasks enqueued and not yet run. -/
def pending_notifies (w : World) : Nat :=
  w.idle.countP (fun s => s.fn == IdleFn.notify_frame_available)

/-- The event is a `dispose` method call. -/
def Event.is_dispose : Event → Bool
  | .call _ method _ => method == "dispose"
  | _ => false

/-- Calls into the decode engine. -/
def Ev.is_engine : Ev → Bool
  | .mpv_create => true
  | .mpv_set_option_string _ _ => true
  | .mpv_initialize_handle => true
  | .mpv_destroy => true
  | .mpv_set_property_string _ _ => true
  | .mpv_get_property _ => true
  | .mpv_command _ => true
  | .mpv_render_context_create => true
  | .mpv_render_context_set_update_callback => true
  | .mpv_render_context_render _ _ _ => true
  | .mpv_render_context_free => true
  | _ => false

/-- Calls into the presentation host. -/
def Ev.is_host : Ev → Bool
  | .fl_texture_registrar_register_texture => true
  | .fl_texture_registrar_mark_texture_frame_available => true
  | _ => false

/-- The engine and host calls of a trace made while the pixel mutex is held; the flag says
whether the mutex is held where the trace starts. -/
def held_calls : Bool → List Ev → List Ev
  | _, [] => []
  | _, Ev.g_mutex_lock :: es => held_calls true es
  | _, Ev.g_mutex_unlock :: es => held_calls false es
  | held, e :: es =>
    if held && (e.is_engine || e.is_host) then e :: held_calls held es
    else held_calls held es

/-- The calls an operation added to the trace of `w`, given the world it produced. -/
def emitted (w w2 : World) : List Ev := w2.trace.drop w.trace.length

/-- An environment in which every call succeeds: return code 0, a non-NULL pointer, no
tracks, and a render that writes nothing. -/
def Env.ok : Env := fun _ => { rc := 0, ival := 0, sval := "", ptr := some 1, bytes := [] }

/-- What every event other than `dispose` keeps of a live player. -/
def Kept (p q : MPVPlayer) : Prop :=
  q.addr = p.addr ∧ q.mpv = p.mpv ∧ q.timer_id = p.timer_id ∧
  q.texture.isSome = p.texture.isSome ∧
  ((p.render_context_ready = true → p.mpv_gl.isSome = true) →
    (q.render_context_ready = true → q.mpv_gl.isSome = true))

/-- The states of a live session: those a successful `init` produces, and those reached
from them by events other than a `dispose` call. -/
inductive Session (env : Env) : World → Prop where
  | init (registrar : Option Nat) (w0 : World) (result : Option Int) :
      (method_init env registrar w0).1 = FlMethodResponse.success result →
      Session env (method_init env registrar w0).2
  | step (w : World) (e : Event) :
      Session env w → Event.is_dispose e = false → Session env (step env w e)

/-- The trace of `method_load` once the `loadfile` command for `url` is issued. -/
def load_cmd_trace (url : String) (w : World) : List Ev :=
  hls_tuning url w.trace ++ [Ev.mpv_command ["loadfile", url]]

/-- The engine's answer to the `width` query of `method_load`. -/
def width_reply (env : Env) (url : String) (w : World) : Reply :=
  env (load_cmd_trace url w ++ [Ev.mpv_get_property "width"])

/-- The engine's answer to the `height` query of `method_load`. -/
def height_reply (env : Env) (url : String) (w : World) : Reply :=
  env (load_cmd_trace url w ++ [Ev.mpv_get_property "width"] ++ [Ev.mpv_get_property "height"])

/-- An environment like `Env.ok` whose engine reports a video of `vw` x `vh`. -/
def Env.video (vw vh : Int) : Env := fun tr =>
  match tr.getLast? with
  | some (Ev.mpv_get_property "width") =>
    { rc := 0, ival := vw, sval := "", ptr := some 1, bytes := [] }
  | some (Ev.mpv_get_property "height") =>
    { rc := 0, ival := vh, sval := "", ptr := some 1, bytes := [] }
  | _ => { rc := 0, ival := 0, sval := "", ptr := some 1, bytes := [] }

/-- The player a successful `init` creates in the boot state, with engine handle 1. -/
def first_player (registrar : Option Nat) : MPVPlayer :=
  { addr := 0, mpv := some 1, mpv_gl := none, texture := some (mpv_pixel_texture_new 1920 1080).1,
    registrar := registrar, texture_id := 0, timer_id := 1, frame_w := 1920, frame_h := 1080,
    initialized := true, render_context_ready := false, frame_count := 0,
    render_requested := false }

/-- The video-track poll of `method_load`, as `load_finish` runs it: the trace it ends with
and `found_video`. -/
def load_poll (env : Env) (p : MPVPlayer) (tr : List Ev) (fl : List Fault) : List Ev × Bool :=
  poll_video env 50
    (init_mpv_render_context env (load_resize env p tr fl).1 (load_resize env p tr fl).2.1).2

/-- The engine's answer to the `mpv_render_context_create` call that `method_load` makes
right after the resize step. -/
def create_reply (env : Env) (p : MPVPlayer) (tr : List Ev) (fl : List Fault) : Reply :=
  env (render_context_calls env (load_resize env p tr fl).2.1)

/-- An environment like `Env.ok` whose engine refuses to create a render context. -/
def Env.no_context : Env := fun tr =>
  match tr.getLast? with
  | some Ev.mpv_render_context_create =>
    { rc := -1, ival := 0, sval := "", ptr := none, bytes := [] }
  | _ => { rc := 0, ival := 0, sval := "", ptr := some 1, bytes := [] }

/-- The player of `first_player` after a `load` that created the render context (handle
1) without a resize. -/
def loaded_player (registrar : Option Nat) : MPVPlayer :=
  { first_player registrar with mpv_gl := some 1, render_context_ready := true }

/-- The engine's answer to the render call of a render pass on player `p` in state `w`. -/
def render_reply (env : Env) (w : World) (p : MPVPlayer) : Reply :=
  env (w.trace ++ [Ev.g_mutex_lock,
    Ev.mpv_render_context_render p.frame_w p.frame_h (wrap32 (p.frame_w * 4))])

/-- The trace of `method_init` in state `w` once `mpv_create` is called. -/
def init_create_trace (w : World) : List Ev :=
  w.trace ++ (mpv_pixel_texture_new 1920 1080).2 ++ [Ev.fl_texture_registrar_register_texture] ++
    [Ev.mpv_create]

/-- The trace of `method_init` in state `w` once the engine is asked to initialise. -/
def init_initialize_trace (w : World) : List Ev :=
  init_create_trace w ++ [Ev.mpv_set_option_string "config" "yes",
    Ev.mpv_set_option_string "input-default-bindings" "yes",
    Ev.mpv_set_option_string "force-window" "yes",
    Ev.mpv_set_option_string "msg-level" "all=v",
    Ev.mpv_initialize_handle]

/-- Whether the pixel mutex is held at the end of a trace; the flag says whether it is held
where the trace starts. -/
def held_after : Bool → List Ev → Bool
  | held, [] => held
  | _, Ev.g_mutex_lock :: es => held_after true es
  | _, Ev.g_mutex_unlock :: es => held_after false es
  | held, _ :: es => held_after held es

/-- A stretch of calls that starts and ends with the mutex free and makes no engine or host
call while it holds the mutex. -/
def Quiet (seg : List Ev) : Prop :=
  held_calls false seg = [] ∧ held_after false seg = false

/-- The trace `tr2` extends `tr` by a quiet stretch. -/
def QuietExt (tr tr2 : List Ev) : Prop := ∃ seg, tr2 = tr ++ seg ∧ Quiet seg

/-- Number of render tasks of the player at address `a` enqueued and not yet run. -/
def session_renders (w : World) (a : Nat) : Nat :=
  w.idle.countP (fun s => s.fn == IdleFn.try_render_frame && s.user_data == some a)

/-- Every queued task points to a player that was allocated before now. -/
def Fresh (w : World) : Prop := ∀ s ∈ w.idle, ∀ a, s.user_data = some a → a < w.allocs

/-- The coalescing invariant: queued tasks point to allocated players, and when a session is
live its player has its texture, a ready render context exists, a pending request had a
ready context, and the queued render tasks of the session are as many as the flag says. -/
def Coalesced (w : World) : Prop :=
  Fresh w ∧ ∀ p, w.g_player = some p →
    p.addr < w.allocs ∧ p.texture.isSome = true ∧
    (p.render_context_ready = true → p.mpv_gl.isSome = true) ∧
    (p.render_requested = true → p.render_context_ready = true) ∧
    session_renders w p.addr = (if p.render_requested then 1 else 0)

/-- The states of the process: the boot state and what any sequence of events makes of
it. -/
inductive Reachable (env : Env) : World → Prop where
  | boot : Reachable env World.boot
  | step (w : World) (e : Event) : Reachable env w → Reachable env (step env w e)

/-- The player of `loaded_player` after a `load` that resized the frame buffer to 8 x 8. -/
def small_player (registrar : Option Nat) : MPVPlayer :=
  { loaded_player registrar with
    frame_w := 8, frame_h := 8,
    texture := some { pixels := some (List.replicate 256 0), width := 8, height := 8,
                      frame_ready := false } }

/-- The coalescing invariant of a session that found no render task queued when it was
created: the player has its texture, a ready render context exists, a pending request had
a ready context, the render tasks in the idle queue are as many as the flag says, and each
of them points to the live player. -/
def Owned (w : World) : Prop :=
  ∃ p, w.g_player = some p ∧ p.texture.isSome = true ∧
    (p.render_context_ready = true → p.mpv_gl.isSome = true) ∧
    (p.render_requested = true → p.render_context_ready = true) ∧
    pending_renders w = (if p.render_requested then 1 else 0) ∧
    ∀ s ∈ w.idle, s.fn = IdleFn.try_render_frame → s.user_data = some p.addr

/-! ## Lemmas on the session controller -/

theorem init_mpv_render_context_fields (env : Env) (p : MPVPlayer) (tr : List Ev) :
    (init_mpv_render_context env p tr).1.addr = p.addr ∧
    (init_mpv_render_context env p tr).1.texture = p.texture ∧
    (init_mpv_render_context env p tr).1.render_requested = p.render_requested ∧
    (init_mpv_render_context env p tr).1.mpv = p.mpv ∧
    (init_mpv_render_context env p tr).1.timer_id = p.timer_id ∧
    (init_mpv_render_context env p tr).1.frame_w = p.frame_w ∧
    (init_mpv_render_context env p tr).1.frame_h = p.frame_h := by
  unfold init_mpv_render_context
  by_cases h1 : p.render_context_ready = true
  · simp [h1]
  · by_cases h2 : (env (render_context_calls env tr)).rc < 0 <;> simp [h1, h2]

theorem init_mpv_render_context_ready (env : Env) (p : MPVPlayer) (tr : List Ev)
    (h : p.render_context_ready = true → p.mpv_gl.isSome = true) :
    (init_mpv_render_context env p tr).1.render_context_ready = true →
      (init_mpv_render_context env p tr).1.mpv_gl.isSome = true := by
  unfold init_mpv_render_context
  by_cases h1 : p.render_context_ready = true
  · simp [h1]
    exact h h1
  · by_cases h2 : (env (render_context_calls env tr)).rc < 0 <;> simp [h1, h2]

theorem init_mpv_render_context_mono (env : Env) (p : MPVPlayer) (tr : List Ev)
    (h : p.render_context_ready = true) :
    (init_mpv_render_context env p tr).1.render_context_ready = true := by
  unfold init_mpv_render_context
  simp [h]

theorem load_resize_fields (env : Env) (p : MPVPlayer) (tr : List Ev) (fl : List Fault) :
    (load_resize env p tr fl).1.addr = p.addr ∧
    (load_resize env p tr fl).1.render_requested = p.render_requested ∧
    (load_resize env p tr fl).1.mpv = p.mpv ∧
    (load_resize env p tr fl).1.mpv_gl = p.mpv_gl ∧
    (load_resize env p tr fl).1.render_context_ready = p.render_context_ready ∧
    (load_resize env p tr fl).1.timer_id = p.timer_id ∧
    (load_resize env p tr fl).1.texture.isSome = p.texture.isSome := by
  simp only [load_resize]
  rcases ht : p.texture with _ | t <;> (split_ifs <;> simp [ht])

/-! ## Lemmas on the idle queue -/

theorem countP_eraseIdx_add {α : Type} (q : α → Bool) :
    ∀ (l : List α) (i : Nat) (a : α), l[i]? = some a →
      (l.eraseIdx i).countP q + (if q a then 1 else 0) = l.countP q := by
  intro l
  induction l with
  | nil => intro i a h; simp at h
  | cons x xs ih =>
    intro i a h
    cases i with
    | zero =>
      simp at h
      subst h
      simp [List.countP_cons]
    | succ n =>
      simp at h
      have := ih n a h
      simp only [List.eraseIdx_cons_succ, List.countP_cons]
      omega

theorem deref_null (w : World) : w.deref none = Deref.null := rfl

theorem deref_live (w : World) (p : MPVPlayer) (hp : w.g_player = some p) :
    w.deref (some p.addr) = Deref.live p := by
  simp [World.deref, hp]

theorem deref_other (w : World) (p : MPVPlayer) (a : Nat) (hp : w.g_player = some p)
    (ha : ¬ p.addr = a) : w.deref (some a) = Deref.dangling := by
  simp [World.deref, hp, ha]

theorem try_render_frame_ok (env : Env) (w : World) (p : MPVPlayer) (t : MPVPixelTexture)
    (g : Nat) (hp : w.g_player = some p) (ht : p.texture = some t) (hgl : p.mpv_gl = some g)
    (hrdy : p.render_context_ready = true)
    (hrc : 0 ≤ (env (w.trace ++ [Ev.g_mutex_lock,
      Ev.mpv_render_context_render p.frame_w p.frame_h (wrap32 (p.frame_w * 4))])).rc) :
    try_render_frame env (some p.addr) w =
      (false,
       { g_player := some { p with
           render_requested := false,
           texture := some { t with
             pixels := t.pixels.map (fun _ => (sanity_check p.frame_w
               (blit (env (w.trace ++ [Ev.g_mutex_lock, Ev.mpv_render_context_render
                 p.frame_w p.frame_h (wrap32 (p.frame_w * 4))])).bytes (t.pixels.getD []))).1),
             frame_ready := true } },
         idle := w.idle ++ [⟨IdleFn.notify_frame_available, some p.addr⟩],
         trace := w.trace ++ [Ev.g_mutex_lock,
           Ev.mpv_render_context_render p.frame_w p.frame_h (wrap32 (p.frame_w * 4)),
           Ev.g_idle_add IdleFn.notify_frame_available, Ev.g_mutex_unlock],
         faults := w.faults ++ (sanity_check p.frame_w
           (blit (env (w.trace ++ [Ev.g_mutex_lock, Ev.mpv_render_context_render
             p.frame_w p.frame_h (wrap32 (p.frame_w * 4))])).bytes (t.pixels.getD []))).2,
         next_source := w.next_source + 1,
         allocs := w.allocs }) := by
  rw [try_render_frame, deref_live w p hp]
  simp [ht, hgl, hrdy, hrc, World.g_idle_add]

theorem try_render_frame_err (env : Env) (w : World) (p : MPVPlayer) (t : MPVPixelTexture)
    (g : Nat) (hp : w.g_player = some p) (ht : p.texture = some t) (hgl : p.mpv_gl = some g)
    (hrdy : p.render_context_ready = true)
    (hrc : (env (w.trace ++ [Ev.g_mutex_lock,
      Ev.mpv_render_context_render p.frame_w p.frame_h (wrap32 (p.frame_w * 4))])).rc < 0) :
    try_render_frame env (some p.addr) w =
      (false,
       { w with
         g_player := some { p with
           render_requested := false,
           texture := some { t with
             pixels := t.pixels.map (fun _ =>
               blit (env (w.trace ++ [Ev.g_mutex_lock, Ev.mpv_render_context_render
                 p.frame_w p.frame_h (wrap32 (p.frame_w * 4))])).bytes (t.pixels.getD [])) } },
         trace := w.trace ++ [Ev.g_mutex_lock,
           Ev.mpv_render_context_render p.frame_w p.frame_h (wrap32 (p.frame_w * 4)),
           Ev.g_mutex_unlock] }) := by
  rw [try_render_frame, deref_live w p hp]
  have hrc2 : ¬ 0 ≤ (env (w.trace ++ [Ev.g_mutex_lock,
      Ev.mpv_render_context_render p.frame_w p.frame_h (wrap32 (p.frame_w * 4))])).rc := by
    omega
  simp [ht, hgl, hrdy, hrc2]

theorem notify_frame_available_removed (user_data : Option Nat) (w : World) :
    (notify_frame_available user_data w).1 = false := by
  unfold notify_frame_available
  cases w.deref user_data with
  | null => rfl
  | dangling => rfl
  | live p => dsimp only; split_ifs <;> rfl

theorem try_render_frame_removed (env : Env) (user_data : Option Nat) (w : World) :
    (try_render_frame env user_data w).1 = false := by
  unfold try_render_frame
  cases w.deref user_data with
  | null => rfl
  | dangling => rfl
  | live p =>
    dsimp only
    cases p.texture with
    | none => rfl
    | some t => dsimp only; split_ifs <;> rfl

theorem load_finish_fields (env : Env) (p : MPVPlayer) (tr : List Ev) (fl : List Fault) :
    (load_finish env p tr fl).1.addr = p.addr ∧
    (load_finish env p tr fl).1.render_requested = p.render_requested ∧
    (load_finish env p tr fl).1.mpv = p.mpv ∧
    (load_finish env p tr fl).1.timer_id = p.timer_id ∧
    (load_finish env p tr fl).1.texture.isSome = p.texture.isSome ∧
    ((p.render_context_ready = true → p.mpv_gl.isSome = true) →
      ((load_finish env p tr fl).1.render_context_ready = true →
        (load_finish env p tr fl).1.mpv_gl.isSome = true)) ∧
    (p.render_context_ready = true →
      (load_finish env p tr fl).1.render_context_ready = true) := by
  simp only [load_finish]
  have A := load_resize_fields env p tr fl
  generalize load_resize env p tr fl = a at A ⊢
  obtain ⟨a1, a2, a3, a4, a5, a6, a7⟩ := A
  have B := init_mpv_render_context_fields env a.1 a.2.1
  have B2 := init_mpv_render_context_ready env a.1 a.2.1
  have B3 := init_mpv_render_context_mono env a.1 a.2.1
  generalize init_mpv_render_context env a.1 a.2.1 = b at B B2 B3 ⊢
  generalize poll_video env 50 b.2 = c
  have D := init_mpv_render_context_fields env b.1 c.1
  have D2 := init_mpv_render_context_ready env b.1 c.1
  have D3 := init_mpv_render_context_mono env b.1 c.1
  generalize init_mpv_render_context env b.1 c.1 = d at D D2 D3 ⊢
  obtain ⟨b1, b2, b3, b4, b5, b6, b7⟩ := B
  obtain ⟨d1, d2, d3, d4, d5, d6, d7⟩ := D
  rw [a4, a5] at B2
  rw [a5] at B3
  cases hc : c.2
  · simp only [Bool.false_eq_true, if_false]
    exact ⟨by rw [b1, a1], by rw [b3, a2], by rw [b4, a3], by rw [b5, a6], by rw [b2, a7],
      fun h => B2 h, B3⟩
  · simp only [if_true]
    exact ⟨by rw [d1, b1, a1], by rw [d3, b3, a2], by rw [d4, b4, a3], by rw [d5, b5, a6],
      by rw [d2, b2, a7], fun h => D2 (B2 h), fun h => D3 (B3 h)⟩

/-! ## Coalescing of render requests, session by session -/

theorem coalesced_congr (w w2 : World) (hg : w2.g_player = w.g_player)
    (hi : w2.idle = w.idle) (ha : w2.allocs = w.allocs) (h : Coalesced w) : Coalesced w2 := by
  unfold Coalesced Fresh session_renders at *
  rw [hg, hi, ha]
  exact h

theorem coalesced_update (w w2 : World) (p q : MPVPlayer) (hp : w.g_player = some p)
    (hq : w2.g_player = some q) (hi : w2.idle = w.idle) (ha : w2.allocs = w.allocs)
    (h1 : q.addr = p.addr) (h2 : q.texture.isSome = p.texture.isSome)
    (h3 : (p.render_context_ready = true → p.mpv_gl.isSome = true) →
      (q.render_context_ready = true → q.mpv_gl.isSome = true))
    (h4 : q.render_requested = p.render_requested)
    (h5 : p.render_context_ready = true → q.render_context_ready = true)
    (h : Coalesced w) : Coalesced w2 := by
  obtain ⟨hf, hs⟩ := h
  obtain ⟨s1, s2, s3, s4, s5⟩ := hs p hp
  refine ⟨?_, ?_⟩
  · unfold Fresh at *; rw [hi, ha]; exact hf
  · intro q2 hq2
    rw [hq] at hq2
    cases Option.some.inj hq2
    refine ⟨by rw [h1, ha]; exact s1, by rw [h2]; exact s2, h3 s3,
      fun hr => h5 (s4 (by rw [← h4]; exact hr)), ?_⟩
    unfold session_renders at *
    rw [hi, h1, h4]
    exact s5

theorem coalesced_signal (cb_ctx : Option Nat) (w : World) (h : Coalesced w) :
    Coalesced (render_update_callback cb_ctx w) := by
  rcases cb_ctx with _ | a
  · rw [render_update_callback, deref_null]; exact h
  · rcases hp : w.g_player with _ | p
    · have hd : w.deref (some a) = Deref.dangling := by simp [World.deref, hp]
      rw [render_update_callback, hd]
      exact coalesced_congr w _ rfl rfl rfl h
    · by_cases ha : p.addr = a
      · subst ha
        rw [render_update_callback, deref_live w p hp]
        dsimp only
        obtain ⟨hf, hs⟩ := h
        obtain ⟨s1, s2, s3, s4, s5⟩ := hs p hp
        split_ifs with hg hr
        · exact ⟨hf, hs⟩
        · have hr2 : p.render_requested = false := by simpa using hr
          have hrdy : p.render_context_ready = true := by
            cases hc : p.render_context_ready <;> simp_all
          refine ⟨?_, ?_⟩
          · intro s hs2 b hb
            simp only [World.g_idle_add, List.mem_append, List.mem_singleton] at hs2
            rcases hs2 with hs2 | hs2
            · exact hf s hs2 b hb
            · subst hs2
              cases Option.some.inj hb
              exact s1
          · intro q hq
            cases Option.some.inj hq
            refine ⟨s1, s2, s3, fun _ => hrdy, ?_⟩
            simp only [session_renders, hr2] at s5
            simp [session_renders, World.g_idle_add, List.countP_append, s5]
        · exact ⟨hf, hs⟩
      · rw [render_update_callback, deref_other w p a hp ha]
        exact coalesced_congr w _ rfl rfl rfl h

theorem coalesced_notify (user_data : Option Nat) (w : World) (h : Coalesced w) :
    Coalesced (notify_frame_available user_data w).2 := by
  rcases user_data with _ | a
  · rw [notify_frame_available, deref_null]; exact h
  · rcases hp : w.g_player with _ | p
    · have hd : w.deref (some a) = Deref.dangling := by simp [World.deref, hp]
      rw [notify_frame_available, hd]
      exact coalesced_congr w _ rfl rfl rfl h
    · by_cases ha : p.addr = a
      · subst ha
        rw [notify_frame_available, deref_live w p hp]
        dsimp only
        split_ifs
        · exact coalesced_update w _ p _ hp rfl rfl rfl rfl rfl (fun x => x) rfl (fun x => x) h
        · exact h
      · rw [notify_frame_available, deref_other w p a hp ha]
        exact coalesced_congr w _ rfl rfl rfl h

theorem coalesced_load (env : Env) (args : FlArgs) (w : World) (h : Coalesced w) :
    Coalesced (method_load env args w).2 := by
  unfold method_load
  rcases hp : w.g_player with _ | p
  · exact h
  · dsimp only
    by_cases h1 : p.mpv.isNone = true
    · rw [if_pos h1]; exact h
    · rw [if_neg h1]
      rcases fl_value_lookup_string args "url" with _ | url
      · exact h
      · dsimp only
        split_ifs
        · exact coalesced_congr w _ hp.symm rfl rfl h
        · obtain ⟨f1, f2, f3, f4, f5, f6, f7⟩ := load_finish_fields env p
            (hls_tuning url w.trace ++ [Ev.mpv_command ["loadfile", url]]) w.faults
          exact coalesced_update w _ p _ hp rfl rfl rfl f1 f5 f6 f2 f7 h

theorem coalesced_init (env : Env) (registrar : Option Nat) (w : World) (h : Coalesced w) :
    Coalesced (method_init env registrar w).2 := by
  obtain ⟨hf, hs⟩ := h
  have hf2 : ∀ s ∈ w.idle, ∀ a, s.user_data = some a → a < w.allocs + 1 :=
    fun s hs2 a ha => Nat.lt_succ_of_lt (hf s hs2 a ha)
  unfold method_init
  rcases hp : w.g_player with _ | p
  · dsimp only
    rcases (env (w.trace ++ (mpv_pixel_texture_new 1920 1080).2 ++
        [Ev.fl_texture_registrar_register_texture] ++ [Ev.mpv_create])).ptr with _ | hdl
    · exact ⟨hf2, fun q hq => by simp at hq⟩
    · dsimp only
      split_ifs
      · exact ⟨hf2, fun q hq => by simp at hq⟩
      · refine ⟨hf2, ?_⟩
        intro q hq
        cases Option.some.inj hq
        refine ⟨Nat.lt_succ_self _, rfl, fun hc => by simp at hc, fun hc => by simp at hc, ?_⟩
        simp only [session_renders, Bool.false_eq_true, if_false, List.countP_eq_zero]
        intro s hs2
        simp only [Bool.and_eq_true, beq_iff_eq, not_and]
        intro _ hud
        exact absurd (hf s hs2 _ hud) (Nat.lt_irrefl _)
  · exact ⟨hf, hs⟩

theorem coalesced_dispose (w : World) (h : Coalesced w) : Coalesced (method_dispose w).2 := by
  unfold method_dispose
  rcases hp : w.g_player with _ | p
  · exact h
  · exact ⟨h.1, fun q hq => by simp at hq⟩

theorem session_renders_erase (w : World) (i : Nat) (src : IdleSource) (a : Nat)
    (hget : w.idle[i]? = some src) :
    session_renders { w with idle := w.idle.eraseIdx i } a +
      (if (src.fn == IdleFn.try_render_frame && src.user_data == some a) = true then 1 else 0) =
      session_renders w a := by
  unfold session_renders
  exact countP_eraseIdx_add
    (fun s : IdleSource => s.fn == IdleFn.try_render_frame && s.user_data == some a)
    w.idle i src hget

theorem coalesced_erase (w : World) (i : Nat) (src : IdleSource) (h : Coalesced w)
    (hget : w.idle[i]? = some src)
    (hsrc : ∀ p, w.g_player = some p →
      (src.fn == IdleFn.try_render_frame && src.user_data == some p.addr) = false) :
    Coalesced { w with idle := w.idle.eraseIdx i } := by
  obtain ⟨hf, hs⟩ := h
  refine ⟨fun s hs2 => hf s (List.mem_of_mem_eraseIdx hs2), ?_⟩
  intro p hp
  obtain ⟨s1, s2, s3, s4, s5⟩ := hs p hp
  refine ⟨s1, s2, s3, s4, ?_⟩
  have e := session_renders_erase w i src p.addr hget
  rw [hsrc p hp] at e
  simp only [Bool.false_eq_true, if_false, Nat.add_zero] at e
  rw [e]
  exact s5

theorem coalesced_dispatch (env : Env) (i : Nat) (w : World) (h : Coalesced w) :
    Coalesced (dispatch_idle env i w) := by
  rcases hp : w.g_player with _ | p
  all_goals
    unfold dispatch_idle
    rcases hget : w.idle[i]? with _ | src
    · exact h
    rcases src with ⟨fn, ud⟩
    cases fn with
    | notify_frame_available =>
      dsimp only
      rw [notify_frame_available_removed]
      simp only [Bool.false_eq_true, if_false]
      exact coalesced_notify ud _ (coalesced_erase w i _ h hget (fun p hp => by simp))
    | try_render_frame =>
      dsimp only
      rw [try_render_frame_removed]
      simp only [Bool.false_eq_true, if_false]
      rcases ud with _ | a
      · rw [try_render_frame, deref_null]
        exact coalesced_erase w i _ h hget (fun p hp => by simp)
      · first
        | -- no session: the pointer dangles
          have hd : World.deref { w with idle := w.idle.eraseIdx i } (some a) =
              Deref.dangling := by simp [World.deref, hp]
          rw [try_render_frame, hd]
          exact coalesced_congr _ _ rfl rfl rfl
            (coalesced_erase w i _ h hget (fun p hp2 => by rw [hp] at hp2; simp at hp2))
        | by_cases ha : p.addr = a
          · subst ha
            obtain ⟨hf, hs⟩ := h
            obtain ⟨s1, s2, s3, s4, s5⟩ := hs p hp
            have e := session_renders_erase w i ⟨IdleFn.try_render_frame, some p.addr⟩
              p.addr hget
            simp only [beq_self_eq_true, Bool.and_self, if_true] at e
            have hrq : p.render_requested = true := by
              cases hc : p.render_requested
              · rw [hc] at s5
                simp only [Bool.false_eq_true, if_false] at s5
                omega
              · rfl
            have hrdy := s4 hrq
            obtain ⟨g, hg⟩ := Option.isSome_iff_exists.mp (s3 hrdy)
            obtain ⟨t, htx⟩ := Option.isSome_iff_exists.mp s2
            have hzero : session_renders { w with idle := w.idle.eraseIdx i } p.addr = 0 := by
              rw [hrq] at s5
              simp only [if_true] at s5
              omega
            have hf1 : ∀ s ∈ w.idle.eraseIdx i, ∀ b, s.user_data = some b → b < w.allocs :=
              fun s hs2 => hf s (List.mem_of_mem_eraseIdx hs2)
            by_cases hrc : 0 ≤ (env (w.trace ++ [Ev.g_mutex_lock,
                Ev.mpv_render_context_render p.frame_w p.frame_h (wrap32 (p.frame_w * 4))])).rc
            · rw [try_render_frame_ok env { w with idle := w.idle.eraseIdx i } p t g hp htx hg
                hrdy hrc]
              refine ⟨?_, ?_⟩
              · intro s hs2 b hb
                simp only [List.mem_append, List.mem_singleton] at hs2
                rcases hs2 with hs2 | hs2
                · exact hf1 s hs2 b hb
                · subst hs2
                  cases Option.some.inj hb
                  exact s1
              · intro q hq
                cases Option.some.inj hq
                refine ⟨s1, rfl, fun _ => s3 hrdy, fun hc => by simp at hc, ?_⟩
                simp only [session_renders] at hzero
                simp [session_renders, List.countP_append, hzero]
            · rw [try_render_frame_err env { w with idle := w.idle.eraseIdx i } p t g hp htx hg
                hrdy (lt_of_not_le hrc)]
              refine ⟨hf1, ?_⟩
              intro q hq
              cases Option.some.inj hq
              refine ⟨s1, rfl, fun _ => s3 hrdy, fun hc => by simp at hc, ?_⟩
              simp only [session_renders] at hzero
              simp [session_renders, hzero]
          · have hd : World.deref { w with idle := w.idle.eraseIdx i } (some a) =
                Deref.dangling := deref_other _ p a hp ha
            rw [try_render_frame, hd]
            refine coalesced_congr _ _ rfl rfl rfl (coalesced_erase w i _ h hget ?_)
            intro p2 hp2
            rw [hp] at hp2
            cases Option.some.inj hp2
            simp [Ne.symm ha]

theorem coalesced_step (env : Env) (w : World) (e : Event) (h : Coalesced w) :
    Coalesced (step env w e) := by
  cases e with
  | call registrar method args =>
    simp only [step, method_call_cb]
    split_ifs
    · exact coalesced_init env registrar w h
    · exact coalesced_load env args w h
    · unfold method_play
      rcases hp : w.g_player with _ | p
      · exact h
      · dsimp only; split_ifs
        · exact h
        · exact coalesced_congr w _ hp.symm rfl rfl h
    · unfold method_pause
      rcases hp : w.g_player with _ | p
      · exact h
      · dsimp only; split_ifs
        · exact h
        · exact coalesced_congr w _ hp.symm rfl rfl h
    · exact coalesced_dispose w h
    · exact h
  | decode_signal cb_ctx => exact coalesced_signal cb_ctx w h
  | run_idle i => exact coalesced_dispatch env i w h
  | copy_pixels =>
    rcases hp : w.g_player with _ | p
    · simp only [step, hp]; exact h
    · rcases ht : p.texture with _ | t
      · simp only [step, hp, ht]; exact h
      · simp only [step, hp, ht]; exact coalesced_congr w _ hp.symm rfl rfl h

theorem coalesced_reachable (env : Env) (w : World) (h : Reachable env w) : Coalesced w := by
  induction h with
  | boot => exact ⟨fun s hs => by simp [World.boot] at hs, fun p hp => by simp [World.boot] at hp⟩
  | step w e _ ih => exact coalesced_step env w e ih

theorem reachable_run (env : Env) (es : List Event) :
    ∀ w : World, Reachable env w → Reachable env (run env w es) := by
  induction es with
  | nil => intro w h; exact h
  | cons e es ih => intro w h; exact ih (step env w e) (Reachable.step w e h)

/-- Coalescing, session by session. In every state the process can reach, when a session
is live at most one render task of that session is enqueued and not yet run, and if every
queued render task belongs to the session then at most one render task is queued at all. -/
theorem session_coalescing (env : Env) (w : World) (p : MPVPlayer)
    (h_reach : Reachable env w) (hp : w.g_player = some p) :
    session_renders w p.addr ≤ 1 ∧
    ((∀ s ∈ w.idle, s.fn = IdleFn.try_render_frame → s.user_data = some p.addr) →
      pending_renders w ≤ 1) ∧
    (p.render_requested = true → render_update_callback (some p.addr) w = w) ∧
    (p.render_requested = false → p.render_context_ready = true →
      render_update_callback (some p.addr) w =
        { w with
          g_player := some { p with render_requested := true },
          idle := w.idle ++ [⟨IdleFn.try_render_frame, some p.addr⟩],
          trace := w.trace ++ [Ev.g_idle_add IdleFn.try_render_frame],
          next_source := w.next_source + 1 } ∧
      session_renders w p.addr = 0 ∧
      session_renders (render_update_callback (some p.addr) w) p.addr = 1) := by
  obtain ⟨_, hs⟩ := coalesced_reachable env w h_reach
  obtain ⟨_, ht, _, hreq, hcnt⟩ := hs p hp
  obtain ⟨t, htx⟩ := Option.isSome_iff_exists.mp ht
  have hle : session_renders w p.addr ≤ 1 := by rw [hcnt]; split_ifs <;> omega
  refine ⟨hle, ?_, ?_, ?_⟩
  · intro hall
    have heq : pending_renders w = session_renders w p.addr := by
      unfold pending_renders session_renders
      apply List.countP_congr
      intro s hs2
      by_cases hfn : s.fn = IdleFn.try_render_frame
      · simp [hfn, hall s hs2 hfn]
      · simp [hfn]
    rw [heq]; exact hle
  · intro hrq
    rw [render_update_callback, deref_live w p hp]
    simp [htx, hrq, hreq hrq]
  · intro hrq hrdy
    have hstep : render_update_callback (some p.addr) w =
        { w with
          g_player := some { p with render_requested := true },
          idle := w.idle ++ [⟨IdleFn.try_render_frame, some p.addr⟩],
          trace := w.trace ++ [Ev.g_idle_add IdleFn.try_render_frame],
          next_source := w.next_source + 1 } := by
      rw [render_update_callback, deref_live w p hp]
      simp [htx, hrq, hrdy, World.g_idle_add]
    have hzero : session_renders w p.addr = 0 := by rw [hcnt]; simp [hrq]
    refine ⟨hstep, hzero, ?_⟩
    rw [hstep]
    simp only [session_renders] at hzero ⊢
    simp [List.countP_append, hzero]

/-! ## C1: coalescing of render requests -/

theorem owned_signal (cb_ctx : Option Nat) (w : World) (h : Owned w) :
    Owned (render_update_callback cb_ctx w) := by
  have hC := h
  obtain ⟨p, hp, ht, hgl, hreq, hcnt, hsrc⟩ := h
  rcases cb_ctx with _ | a
  · simpa [render_update_callback, World.deref] using hC
  · by_cases ha : p.addr = a
    · subst ha
      rw [render_update_callback, deref_live w p hp]
      dsimp only
      obtain ⟨t, htx⟩ := Option.isSome_iff_exists.mp ht
      cases hrdy : p.render_context_ready
      · simpa [htx, hrdy] using hC
      · cases hrq : p.render_requested
        · simp only [htx, hrdy, hrq, Option.isNone_some, Bool.not_true, Bool.or_self,
            Bool.false_eq_true, if_false, Bool.not_false, if_true]
          refine ⟨_, rfl, rfl, fun _ => hgl hrdy, fun _ => rfl, ?_, ?_⟩
          · simp only [pending_renders, hrq] at hcnt
            simp [pending_renders, World.g_idle_add, List.countP_append, hcnt]
          · intro s hs hfn
            simp only [World.g_idle_add, List.mem_append, List.mem_singleton] at hs
            rcases hs with hs | hs
            · exact hsrc s hs hfn
            · subst hs; rfl
        · simpa [htx, hrdy, hrq] using hC
    · rw [render_update_callback, deref_other w p a hp ha]
      exact ⟨p, hp, ht, hgl, hreq, hcnt, hsrc⟩

theorem owned_notify (user_data : Option Nat) (w : World) (h : Owned w) :
    Owned (notify_frame_available user_data w).2 := by
  have hC := h
  obtain ⟨p, hp, ht, hgl, hreq, hcnt, hsrc⟩ := h
  rcases user_data with _ | a
  · simpa [notify_frame_available, World.deref] using hC
  · by_cases ha : p.addr = a
    · subst ha
      rw [notify_frame_available, deref_live w p hp]
      dsimp only
      split_ifs
      · exact ⟨_, rfl, ht, hgl, hreq, hcnt, hsrc⟩
      · exact hC
    · rw [notify_frame_available, deref_other w p a hp ha]
      exact ⟨p, hp, ht, hgl, hreq, hcnt, hsrc⟩

theorem owned_dispatch (env : Env) (i : Nat) (w : World) (h : Owned w) :
    Owned (dispatch_idle env i w) := by
  have hC := h
  obtain ⟨p, hp, ht, hgl, hreq, hcnt, hsrc⟩ := h
  unfold dispatch_idle
  rcases hget : w.idle[i]? with _ | src
  · exact hC
  · have hmem : src ∈ w.idle := List.getElem?_mem hget
    have hcount := countP_eraseIdx_add (fun s => s.fn == IdleFn.try_render_frame) w.idle i src hget
    rcases src with ⟨fn, ud⟩
    obtain ⟨t, htx⟩ := Option.isSome_iff_exists.mp ht
    cases fn with
    | try_render_frame =>
      have hud : ud = some p.addr := hsrc _ hmem rfl
      subst hud
      simp only [beq_self_eq_true, if_true] at hcount
      have hrq : p.render_requested = true := by
        cases hc : p.render_requested
        · simp only [pending_renders, hc, Bool.false_eq_true, if_false] at hcnt
          omega
        · rfl
      have hrdy := hreq hrq
      obtain ⟨g, hg⟩ := Option.isSome_iff_exists.mp (hgl hrdy)
      have hzero : (w.idle.eraseIdx i).countP (fun s => s.fn == IdleFn.try_render_frame) = 0 := by
        simp only [pending_renders, hrq, if_true] at hcnt
        omega
      have hsub : ∀ s ∈ w.idle.eraseIdx i, s.fn = IdleFn.try_render_frame →
          s.user_data = some p.addr := fun s hs => hsrc s (List.mem_of_mem_eraseIdx hs)
      dsimp only
      by_cases hrc : 0 ≤ (env (w.trace ++ [Ev.g_mutex_lock,
          Ev.mpv_render_context_render p.frame_w p.frame_h (wrap32 (p.frame_w * 4))])).rc
      · rw [try_render_frame_ok env { w with idle := w.idle.eraseIdx i } p t g hp htx hg hrdy hrc]
        refine ⟨_, rfl, rfl, fun _ => hgl hrdy, fun hf => by simp at hf, ?_, ?_⟩
        · simp [pending_renders, List.countP_append, hzero]
        · intro s hs hfn
          simp only [List.mem_append, List.mem_singleton, Bool.false_eq_true, if_false] at hs
          rcases hs with hs | hs
          · exact hsub s hs hfn
          · subst hs; rfl
      · rw [try_render_frame_err env { w with idle := w.idle.eraseIdx i } p t g hp htx hg hrdy
          (lt_of_not_le hrc)]
        refine ⟨_, rfl, rfl, fun _ => hgl hrdy, fun hf => by simp at hf, ?_, ?_⟩
        · simp [pending_renders, hzero]
        · intro s hs hfn
          exact hsub s hs hfn
    | notify_frame_available =>
      have hsame : (w.idle.eraseIdx i).countP (fun s => s.fn == IdleFn.try_render_frame) =
          w.idle.countP (fun s => s.fn == IdleFn.try_render_frame) := by
        simpa using hcount
      have hsub : ∀ s ∈ w.idle.eraseIdx i, s.fn = IdleFn.try_render_frame →
          s.user_data = some p.addr := fun s hs => hsrc s (List.mem_of_mem_eraseIdx hs)
      have hC1 : Owned { w with idle := w.idle.eraseIdx i } :=
        ⟨p, hp, ht, hgl, hreq, by simpa [pending_renders, hsame] using hcnt, hsub⟩
      dsimp only
      have hN := owned_notify ud _ hC1
      have hfalse : (notify_frame_available ud { w with idle := w.idle.eraseIdx i }).1 = false :=
        notify_frame_available_removed ud _
      simp only [hfalse, Bool.false_eq_true, if_false]
      exact hN

theorem owned_load (env : Env) (args : FlArgs) (w : World) (h : Owned w) :
    Owned (method_load env args w).2 := by
  have hC := h
  obtain ⟨p, hp, ht, hgl, hreq, hcnt, hsrc⟩ := h
  unfold method_load
  rw [hp]
  dsimp only
  by_cases h1 : p.mpv.isNone = true
  · rw [if_pos h1]; exact hC
  · rw [if_neg h1]
    rcases fl_value_lookup_string args "url" with _ | url
    · exact hC
    · dsimp only
      split_ifs
      · exact ⟨p, rfl, ht, hgl, hreq, hcnt, hsrc⟩
      · obtain ⟨f1, f2, f3, f4, f5, f6, f7⟩ := load_finish_fields env p
          (hls_tuning url w.trace ++ [Ev.mpv_command ["loadfile", url]]) w.faults
        exact ⟨_, rfl, by rw [f5]; exact ht, f6 hgl,
          fun hr => f7 (hreq (by rw [← f2]; exact hr)),
          by rw [f2]; exact hcnt, fun s hs hfn => by rw [f1]; exact hsrc s hs hfn⟩

theorem owned_call (env : Env) (registrar : Option Nat) (method : String) (args : FlArgs)
    (w : World) (hm : ¬ method = "dispose") (h : Owned w) :
    Owned (method_call_cb env registrar method args w).2 := by
  have hC := h
  obtain ⟨p, hp, ht, hgl, hreq, hcnt, hsrc⟩ := h
  unfold method_call_cb
  split_ifs
  · simp only [method_init, hp]; exact hC
  · exact owned_load env args w hC
  · simp only [method_play, hp]
    split_ifs
    · exact hC
    · exact ⟨p, rfl, ht, hgl, hreq, hcnt, hsrc⟩
  · simp only [method_pause, hp]
    split_ifs
    · exact hC
    · exact ⟨p, rfl, ht, hgl, hreq, hcnt, hsrc⟩
  · exact hC

theorem owned_step (env : Env) (w : World) (e : Event) (he : e.is_dispose = false)
    (h : Owned w) : Owned (step env w e) := by
  cases e with
  | call registrar method args =>
    exact owned_call env registrar method args w (by simpa [Event.is_dispose] using he) h
  | decode_signal cb_ctx => exact owned_signal cb_ctx w h
  | run_idle i => exact owned_dispatch env i w h
  | copy_pixels =>
    have hC := h
    obtain ⟨p, hp, ht, hgl, hreq, hcnt, hsrc⟩ := h
    obtain ⟨t, htx⟩ := Option.isSome_iff_exists.mp ht
    simp only [step, hp, htx]
    exact ⟨p, rfl, ht, hgl, hreq, hcnt, hsrc⟩

theorem owned_run (env : Env) (es : List Event) :
    ∀ w : World, (∀ e ∈ es, Event.is_dispose e = false) → Owned w →
      Owned (run env w es) := by
  induction es with
  | nil => intro w _ h; exact h
  | cons e es ih =>
    intro w hes h
    have h1 := owned_step env w e (hes e (List.mem_cons_self _ _)) h
    exact ih (step env w e) (fun e2 h2 => hes e2 (List.mem_cons_of_mem _ h2)) h1

theorem owned_init (env : Env) (registrar : Option Nat) (w : World)
    (result : Option Int)
    (h_init : (method_init env registrar w).1 = FlMethodResponse.success result)
    (h_clean : pending_renders w = 0) : Owned (method_init env registrar w).2 := by
  unfold method_init at h_init ⊢
  rcases hp : w.g_player with _ | p
  · rw [hp] at h_init
    dsimp only at h_init ⊢
    rcases hc : (env (w.trace ++ (mpv_pixel_texture_new 1920 1080).2 ++
        [Ev.fl_texture_registrar_register_texture] ++ [Ev.mpv_create])).ptr with _ | hdl
    · rw [hc] at h_init; simp at h_init
    · rw [hc] at h_init
      dsimp only at h_init ⊢
      split_ifs at h_init ⊢ with h2
      refine ⟨_, rfl, rfl, fun hf => by simp at hf, fun hf => by simp at hf, ?_, ?_⟩
      · simpa [pending_renders] using h_clean
      · intro s hs hfn
        exfalso
        have hz : w.idle.countP (fun s => s.fn == IdleFn.try_render_frame) = 0 := h_clean
        rw [List.countP_eq_zero] at hz
        exact hz s hs (by simp [hfn])
  · rw [hp] at h_init; simp at h_init

/-- C1 (amended). Coalescing. After a successful `init` that was made while no render
task was queued (as the first `init` of a process is), in the state reached by any sequence
of events that holds no `dispose` call (decode signals, turns of the main loop, `load` and
the other calls), the session is live and at most one render task is enqueued and not yet
run; a decode signal that arrives while `render_requested` is set changes nothing at all; a
decode signal that arrives while it is clear and the render context is ready sets the flag
and enqueues exactly one render task. Tasks of other kinds may be queued when `init` runs,
whatever they point to. -/
theorem coalescing (env : Env) (registrar : Option Nat) (w0 : World) (result : Option Int)
    (es : List Event)
    (h_init : (method_init env registrar w0).1 = FlMethodResponse.success result)
    (h_clean : pending_renders w0 = 0)
    (h_es : ∀ e ∈ es, Event.is_dispose e = false) :
    ∃ p, (run env (method_init env registrar w0).2 es).g_player = some p ∧
      pending_renders (run env (method_init env registrar w0).2 es) ≤ 1 ∧
      (p.render_requested = true →
        render_update_callback (some p.addr) (run env (method_init env registrar w0).2 es) =
          run env (method_init env registrar w0).2 es) ∧
      (p.render_requested = false → p.render_context_ready = true →
        render_update_callback (some p.addr) (run env (method_init env registrar w0).2 es) =
          { run env (method_init env registrar w0).2 es with
            g_player := some { p with render_requested := true },
            idle := (run env (method_init env registrar w0).2 es).idle ++
              [⟨IdleFn.try_render_frame, some p.addr⟩],
            trace := (run env (method_init env registrar w0).2 es).trace ++
              [Ev.g_idle_add IdleFn.try_render_frame],
            next_source := (run env (method_init env registrar w0).2 es).next_source + 1 } ∧
        pending_renders (run env (method_init env registrar w0).2 es) = 0 ∧
        pending_renders (render_update_callback (some p.addr)
          (run env (method_init env registrar w0).2 es)) = 1) := by
  have hC := owned_run env es _ h_es (owned_init env registrar w0 result h_init h_clean)
  generalize run env (method_init env registrar w0).2 es = w at hC
  obtain ⟨p, hp, ht, hgl, hreq, hcnt, hsrc⟩ := hC
  obtain ⟨t, htx⟩ := Option.isSome_iff_exists.mp ht
  refine ⟨p, hp, ?_, ?_, ?_⟩
  · rw [hcnt]; split_ifs <;> omega
  · intro hrq
    rw [render_update_callback, deref_live w p hp]
    simp [htx, hrq, hreq hrq]
  · intro hrq hrdy
    have hstep : render_update_callback (some p.addr) w =
        { w with
          g_player := some { p with render_requested := true },
          idle := w.idle ++ [⟨IdleFn.try_render_frame, some p.addr⟩],
          trace := w.trace ++ [Ev.g_idle_add IdleFn.try_render_frame],
          next_source := w.next_source + 1 } := by
      rw [render_update_callback, deref_live w p hp]
      simp [htx, hrq, hrdy, World.g_idle_add]
    have hzero : pending_renders w = 0 := by rw [hcnt]; simp [hrq]
    refine ⟨hstep, hzero, ?_⟩
    rw [hstep]
    simp only [pending_renders] at hzero ⊢
    simp [List.countP_append, hzero]

theorem coalescing_witness :
    (method_init Env.ok (some 7) World.boot).1 = FlMethodResponse.success (some 0) ∧
    pending_renders World.boot = 0 ∧
    (∀ e ∈ [Event.call (some 7) "load" [("url", "a.mp4")], Event.decode_signal (some 0),
      Event.decode_signal (some 0)], Event.is_dispose e = false) ∧
    ∃ p, (run Env.ok (method_init Env.ok (some 7) World.boot).2
        [Event.call (some 7) "load" [("url", "a.mp4")], Event.decode_signal (some 0),
          Event.decode_signal (some 0)]).g_player = some p ∧
      pending_renders (run Env.ok (method_init Env.ok (some 7) World.boot).2
        [Event.call (some 7) "load" [("url", "a.mp4")], Event.decode_signal (some 0),
          Event.decode_signal (some 0)]) ≤ 1 :=
  ⟨rfl, rfl, by decide,
    (coalescing Env.ok (some 7) World.boot (some 0)
      [Event.call (some 7) "load" [("url", "a.mp4")], Event.decode_signal (some 0),
        Event.decode_signal (some 0)] rfl rfl (by decide)).imp
      (fun _ h => ⟨h.1, h.2.1⟩)⟩

/-- C1 (as stated) fails: a session gets a decode signal and is disposed before its render
task runs; `dispose` leaves that task in the idle queue. After the next successful `init`,
one `load` and one decode signal, two render tasks are enqueued and not yet run. -/
theorem stale_render_task :
    pending_renders (run Env.ok World.boot
      [Event.call (some 7) "init" [], Event.call (some 7) "load" [("url", "a.mp4")],
        Event.decode_signal (some 0), Event.call (some 7) "dispose" []]) = 1 ∧
    (method_init Env.ok (some 7) (run Env.ok World.boot
      [Event.call (some 7) "init" [], Event.call (some 7) "load" [("url", "a.mp4")],
        Event.decode_signal (some 0), Event.call (some 7) "dispose" []])).1 =
      FlMethodResponse.success (some 0) ∧
    (run Env.ok (method_init Env.ok (some 7) (run Env.ok World.boot
        [Event.call (some 7) "init" [], Event.call (some 7) "load" [("url", "a.mp4")],
          Event.decode_signal (some 0), Event.call (some 7) "dispose" []])).2
      [Event.call (some 7) "load" [("url", "a.mp4")], Event.decode_signal (some 1)]).idle =
      [⟨IdleFn.try_render_frame, some 0⟩, ⟨IdleFn.try_render_frame, some 1⟩] ∧
    pending_renders (run Env.ok (method_init Env.ok (some 7) (run Env.ok World.boot
        [Event.call (some 7) "init" [], Event.call (some 7) "load" [("url", "a.mp4")],
          Event.decode_signal (some 0), Event.call (some 7) "dispose" []])).2
      [Event.call (some 7) "load" [("url", "a.mp4")], Event.decode_signal (some 1)]) = 2 :=
  ⟨rfl, rfl, rfl, rfl⟩

/-! ## C2: a second `init` -/

theorem kept_refl (p : MPVPlayer) : Kept p p := ⟨rfl, rfl, rfl, rfl, fun h => h⟩

theorem try_render_frame_kept (env : Env) (user_data : Option Nat) (w : World) (p : MPVPlayer)
    (hp : w.g_player = some p) :
    ∃ q, (try_render_frame env user_data w).2.g_player = some q ∧ Kept p q := by
  rcases user_data with _ | a
  · rw [try_render_frame, deref_null]
    exact ⟨p, hp, kept_refl p⟩
  · by_cases ha : p.addr = a
    · subst ha
      rw [try_render_frame, deref_live w p hp]
      dsimp only
      rcases ht : p.texture with _ | t
      · exact ⟨p, hp, kept_refl p⟩
      · dsimp only
        split_ifs
        · exact ⟨p, hp, kept_refl p⟩
        · exact ⟨_, rfl, rfl, rfl, rfl, by simp [ht], fun h => h⟩
        · exact ⟨_, rfl, rfl, rfl, rfl, by simp [ht], fun h => h⟩
    · rw [try_render_frame, deref_other w p a hp ha]
      exact ⟨p, hp, kept_refl p⟩

theorem notify_frame_available_kept (user_data : Option Nat) (w : World) (p : MPVPlayer)
    (hp : w.g_player = some p) :
    ∃ q, (notify_frame_available user_data w).2.g_player = some q ∧ Kept p q := by
  rcases user_data with _ | a
  · rw [notify_frame_available, deref_null]
    exact ⟨p, hp, kept_refl p⟩
  · by_cases ha : p.addr = a
    · subst ha
      rw [notify_frame_available, deref_live w p hp]
      dsimp only
      split_ifs
      · exact ⟨_, rfl, rfl, rfl, rfl, rfl, fun h => h⟩
      · exact ⟨p, hp, kept_refl p⟩
    · rw [notify_frame_available, deref_other w p a hp ha]
      exact ⟨p, hp, kept_refl p⟩

theorem render_update_callback_kept (cb_ctx : Option Nat) (w : World) (p : MPVPlayer)
    (hp : w.g_player = some p) :
    ∃ q, (render_update_callback cb_ctx w).g_player = some q ∧ Kept p q := by
  rcases cb_ctx with _ | a
  · rw [render_update_callback, deref_null]
    exact ⟨p, hp, kept_refl p⟩
  · by_cases ha : p.addr = a
    · subst ha
      rw [render_update_callback, deref_live w p hp]
      dsimp only
      split_ifs
      · exact ⟨p, hp, kept_refl p⟩
      · exact ⟨_, rfl, rfl, rfl, rfl, rfl, fun h => h⟩
      · exact ⟨p, hp, kept_refl p⟩
    · rw [render_update_callback, deref_other w p a hp ha]
      exact ⟨p, hp, kept_refl p⟩

theorem dispatch_idle_kept (env : Env) (i : Nat) (w : World) (p : MPVPlayer)
    (hp : w.g_player = some p) :
    ∃ q, (dispatch_idle env i w).g_player = some q ∧ Kept p q := by
  unfold dispatch_idle
  rcases w.idle[i]? with _ | src
  · exact ⟨p, hp, kept_refl p⟩
  · rcases src with ⟨fn, ud⟩
    cases fn with
    | try_render_frame =>
      dsimp only
      rw [try_render_frame_removed]
      exact try_render_frame_kept env ud { w with idle := w.idle.eraseIdx i } p hp
    | notify_frame_available =>
      dsimp only
      rw [notify_frame_available_removed]
      exact notify_frame_available_kept ud { w with idle := w.idle.eraseIdx i } p hp

theorem method_load_kept (env : Env) (args : FlArgs) (w : World) (p : MPVPlayer)
    (hp : w.g_player = some p) :
    ∃ q, (method_load env args w).2.g_player = some q ∧ Kept p q := by
  unfold method_load
  rw [hp]
  dsimp only
  by_cases h1 : p.mpv.isNone = true
  · rw [if_pos h1]; exact ⟨p, hp, kept_refl p⟩
  · rw [if_neg h1]
    rcases fl_value_lookup_string args "url" with _ | url
    · exact ⟨p, hp, kept_refl p⟩
    · dsimp only
      split_ifs
      · exact ⟨p, rfl, kept_refl p⟩
      · obtain ⟨f1, f2, f3, f4, f5, f6, f7⟩ := load_finish_fields env p
          (hls_tuning url w.trace ++ [Ev.mpv_command ["loadfile", url]]) w.faults
        exact ⟨_, rfl, f1, f3, f4, f5, f6⟩

theorem step_kept (env : Env) (w : World) (e : Event) (p : MPVPlayer)
    (he : e.is_dispose = false) (hp : w.g_player = some p) :
    ∃ q, (step env w e).g_player = some q ∧ Kept p q := by
  cases e with
  | call registrar method args =>
    have hm : ¬ method = "dispose" := by simpa [Event.is_dispose] using he
    simp only [step, method_call_cb]
    split_ifs
    · simp only [method_init, hp]; exact ⟨p, rfl, kept_refl p⟩
    · exact method_load_kept env args w p hp
    · simp only [method_play, hp]
      split_ifs
      · exact ⟨p, hp, kept_refl p⟩
      · exact ⟨p, rfl, kept_refl p⟩
    · simp only [method_pause, hp]
      split_ifs
      · exact ⟨p, hp, kept_refl p⟩
      · exact ⟨p, rfl, kept_refl p⟩
    · exact ⟨p, hp, kept_refl p⟩
  | decode_signal cb_ctx => exact render_update_callback_kept cb_ctx w p hp
  | run_idle i => exact dispatch_idle_kept env i w p hp
  | copy_pixels =>
    simp only [step, hp]
    rcases p.texture with _ | t
    · exact ⟨p, hp, kept_refl p⟩
    · exact ⟨p, rfl, kept_refl p⟩

theorem kept_trans (p q r : MPVPlayer) (h1 : Kept p q) (h2 : Kept q r) : Kept p r := by
  obtain ⟨a1, a2, a3, a4, a5⟩ := h1
  obtain ⟨b1, b2, b3, b4, b5⟩ := h2
  exact ⟨b1.trans a1, b2.trans a2, b3.trans a3, b4.trans a4, fun h => b5 (a5 h)⟩

theorem run_kept (env : Env) (es : List Event) :
    ∀ (w : World) (p : MPVPlayer), (∀ e ∈ es, Event.is_dispose e = false) →
      w.g_player = some p → ∃ q, (run env w es).g_player = some q ∧ Kept p q := by
  induction es with
  | nil => intro w p _ hp; exact ⟨p, hp, kept_refl p⟩
  | cons e es ih =>
    intro w p hes hp
    obtain ⟨q, hq, hk⟩ := step_kept env w e p (hes e (List.mem_cons_self _ _)) hp
    obtain ⟨r, hr, hk2⟩ := ih (step env w e) q (fun e2 h2 => hes e2 (List.mem_cons_of_mem _ h2)) hq
    exact ⟨r, hr, kept_trans p q r hk hk2⟩

theorem method_init_success (env : Env) (registrar : Option Nat) (w : World)
    (result : Option Int)
    (h : (method_init env registrar w).1 = FlMethodResponse.success result) :
    w.g_player = none ∧
    ∃ p, (method_init env registrar w).2.g_player = some p ∧ p.addr = w.allocs ∧
      p.mpv.isSome = true ∧ p.mpv_gl = none ∧
      p.texture = some (mpv_pixel_texture_new 1920 1080).1 ∧ p.registrar = registrar ∧
      p.timer_id = w.next_source + 1 ∧ p.frame_w = 1920 ∧ p.frame_h = 1080 ∧
      p.initialized = true ∧ p.render_context_ready = false ∧ p.frame_count = 0 ∧
      p.render_requested = false ∧ result = some p.texture_id ∧
      (method_init env registrar w).2.idle = w.idle := by
  unfold method_init at h ⊢
  rcases hp : w.g_player with _ | p
  · rw [hp] at h
    dsimp only at h ⊢
    rcases hc : (env (w.trace ++ (mpv_pixel_texture_new 1920 1080).2 ++
        [Ev.fl_texture_registrar_register_texture] ++ [Ev.mpv_create])).ptr with _ | hdl
    · rw [hc] at h; simp at h
    · rw [hc] at h
      dsimp only at h ⊢
      split_ifs at h ⊢ with h2
      simp only [FlMethodResponse.success.injEq] at h
      exact ⟨rfl, _, rfl, rfl, rfl, rfl, rfl, rfl, rfl, rfl, rfl, rfl, rfl, rfl, rfl,
        h.symm, rfl⟩
  · rw [hp] at h; simp at h

/-- C2. After one successful `init`, an `init` call made after any sequence of events that
holds no `dispose` call returns the error with code `ALREADY` and leaves the whole process
state, the session included, as it was. -/
theorem init_twice_rejected (env : Env) (registrar registrar2 : Option Nat) (w0 : World)
    (result : Option Int) (es : List Event) (args : FlArgs)
    (h_init : (method_init env registrar w0).1 = FlMethodResponse.success result)
    (h_es : ∀ e ∈ es, Event.is_dispose e = false) :
    method_init env registrar2 (run env (method_init env registrar w0).2 es) =
      (FlMethodResponse.error "ALREADY" "already initialized",
       run env (method_init env registrar w0).2 es) ∧
    method_call_cb env registrar2 "init" args (run env (method_init env registrar w0).2 es) =
      (FlMethodResponse.error "ALREADY" "already initialized",
       run env (method_init env registrar w0).2 es) := by
  obtain ⟨_, p, hp, _⟩ := method_init_success env registrar w0 result h_init
  obtain ⟨q, hq, _⟩ := run_kept env es _ p h_es hp
  have h1 : method_init env registrar2 (run env (method_init env registrar w0).2 es) =
      (FlMethodResponse.error "ALREADY" "already initialized",
       run env (method_init env registrar w0).2 es) := by
    rw [method_init, hq]
  exact ⟨h1, by rw [method_call_cb, if_pos rfl, h1]⟩

theorem init_twice_rejected_witness :
    (method_init Env.ok (some 7) World.boot).1 = FlMethodResponse.success (some 0) ∧
    (∀ e ∈ [Event.call (some 7) "load" [("url", "a.mp4")], Event.call none "play" [],
      Event.decode_signal (some 0), Event.run_idle 0], Event.is_dispose e = false) ∧
    method_init Env.ok (some 8) (run Env.ok (method_init Env.ok (some 7) World.boot).2
        [Event.call (some 7) "load" [("url", "a.mp4")], Event.call none "play" [],
          Event.decode_signal (some 0), Event.run_idle 0]) =
      (FlMethodResponse.error "ALREADY" "already initialized",
       run Env.ok (method_init Env.ok (some 7) World.boot).2
        [Event.call (some 7) "load" [("url", "a.mp4")], Event.call none "play" [],
          Event.decode_signal (some 0), Event.run_idle 0]) :=
  ⟨rfl, by decide,
    (init_twice_rejected Env.ok (some 7) (some 8) World.boot (some 0)
      [Event.call (some 7) "load" [("url", "a.mp4")], Event.call none "play" [],
        Event.decode_signal (some 0), Event.run_idle 0] [] rfl (by decide)).1⟩

/-! ## C3: `pause` and `dispose` never fail -/

/-- C3. `pause` and `dispose` are idempotent and never report an error. In every state both
return success; `pause` leaves the session as it is, so a repeated `pause` succeeds again;
`dispose` leaves the session absent, and a second `dispose` returns success and changes
nothing; a `pause` with no session, or on a player without an engine handle, returns
success and changes nothing at all. The same holds through `method_call_cb`. -/
theorem pause_dispose_tolerant (env : Env) (registrar : Option Nat) (args : FlArgs)
    (w : World) (p : MPVPlayer) :
    (method_pause w).1 = FlMethodResponse.success none ∧
    (method_pause w).2.g_player = w.g_player ∧
    (method_pause (method_pause w).2).1 = FlMethodResponse.success none ∧
    (method_dispose w).1 = FlMethodResponse.success none ∧
    (method_dispose w).2.g_player = none ∧
    method_dispose (method_dispose w).2 =
      (FlMethodResponse.success none, (method_dispose w).2) ∧
    method_pause (method_dispose w).2 =
      (FlMethodResponse.success none, (method_dispose w).2) ∧
    method_pause { w with g_player := none } =
      (FlMethodResponse.success none, { w with g_player := none }) ∧
    method_pause { w with g_player := some { p with mpv := none } } =
      (FlMethodResponse.success none, { w with g_player := some { p with mpv := none } }) ∧
    method_dispose { w with g_player := none } =
      (FlMethodResponse.success none, { w with g_player := none }) ∧
    (method_call_cb env registrar "pause" args w).1 = FlMethodResponse.success none ∧
    (method_call_cb env registrar "dispose" args w).1 = FlMethodResponse.success none := by
  have hpause : ∀ v : World, (method_pause v).1 = FlMethodResponse.success none := by
    intro v
    unfold method_pause
    rcases v.g_player with _ | q
    · rfl
    · dsimp only; split_ifs <;> rfl
  have hdisp : ∀ v : World, (method_dispose v).1 = FlMethodResponse.success none := by
    intro v
    unfold method_dispose
    rcases v.g_player with _ | q <;> rfl
  have hgone : (method_dispose w).2.g_player = none := by
    unfold method_dispose
    rcases hq : w.g_player with _ | q
    · exact hq
    · rfl
  refine ⟨hpause w, ?_, hpause _, hdisp w, hgone, ?_, ?_, rfl, rfl, rfl, ?_, ?_⟩
  · unfold method_pause
    rcases hq : w.g_player with _ | q
    · exact hq
    · dsimp only; split_ifs
      · exact hq
      · rfl
  · rw [method_dispose, hgone]
  · rw [method_pause, hgone]
  · have : method_call_cb env registrar "pause" args w = method_pause w := by
      simp [method_call_cb]
    rw [this]; exact hpause w
  · have : method_call_cb env registrar "dispose" args w = method_dispose w := by
      simp [method_call_cb]
    rw [this]; exact hdisp w

/-! ## C4: `load` without a url -/

theorem lookup_missing (args : FlArgs) (key : String) (h : ∀ kv ∈ args, ¬ kv.1 = key) :
    fl_value_lookup_string args key = none := by
  unfold fl_value_lookup_string
  rw [Option.map_eq_none', List.find?_eq_none]
  intro kv hkv
  simpa using h kv hkv

/-- C4. When the argument map has no `url` entry, `load` on a live session (a player with
an engine handle) returns the error with code `ARG` and leaves the whole process state as
it was: no call reaches the engine, and the frame buffer (pixels, width, height, ready
flag) and `frame_w`/`frame_h` are unchanged. With no session at all it returns the error
with code `NOT_INIT`, again without any change. -/
theorem load_missing_url (env : Env) (args : FlArgs) (w : World)
    (h_args : ∀ kv ∈ args, ¬ kv.1 = "url") :
    (∀ p, w.g_player = some p → p.mpv.isSome = true →
      method_load env args w = (FlMethodResponse.error "ARG" "missing url", w) ∧
      emitted w (method_load env args w).2 = [] ∧
      (method_load env args w).2.g_player = some p) ∧
    (w.g_player = none →
      method_load env args w = (FlMethodResponse.error "NOT_INIT" "player not init", w)) := by
  have hl := lookup_missing args "url" h_args
  constructor
  · intro p hp hm
    have h1 : method_load env args w = (FlMethodResponse.error "ARG" "missing url", w) := by
      rw [method_load, hp]
      obtain ⟨m, hm2⟩ := Option.isSome_iff_exists.mp hm
      simp [hm2, hl]
    refine ⟨h1, ?_, ?_⟩
    · rw [h1]; simp [emitted]
    · rw [h1]; exact hp
  · intro hp
    rw [method_load, hp]

theorem load_missing_url_witness :
    (∀ kv ∈ [("uri", "a.mp4"), ("volume", "3")], ¬ kv.1 = "url") ∧
    (method_init Env.ok (some 7) World.boot).2.g_player.isSome = true ∧
    (method_load Env.ok [("uri", "a.mp4"), ("volume", "3")]
      (method_init Env.ok (some 7) World.boot).2).1 =
        FlMethodResponse.error "ARG" "missing url" ∧
    method_load Env.ok [("uri", "a.mp4"), ("volume", "3")] World.boot =
      (FlMethodResponse.error "NOT_INIT" "player not init", World.boot) :=
  ⟨by decide, rfl,
    congrArg Prod.fst (((load_missing_url Env.ok [("uri", "a.mp4"), ("volume", "3")]
      (method_init Env.ok (some 7) World.boot).2 (by decide)).1 _ rfl rfl).1),
    (load_missing_url Env.ok [("uri", "a.mp4"), ("volume", "3")] World.boot (by decide)).2 rfl⟩

/-! ## C5: the frame buffer after a resizing `load` -/

theorem session_live (env : Env) (w : World) (h : Session env w) :
    ∃ p, w.g_player = some p ∧ p.mpv.isSome = true ∧ p.texture.isSome = true ∧
      p.timer_id ≠ 0 ∧ (p.render_context_ready = true → p.mpv_gl.isSome = true) := by
  induction h with
  | init registrar w0 result h_init =>
    obtain ⟨_, p, hp, _, hm, hgl, ht, _, htm, _, _, _, hr, _⟩ :=
      method_init_success env registrar w0 result h_init
    exact ⟨p, hp, hm, by rw [ht]; rfl, by rw [htm]; omega, fun hf => by rw [hr] at hf; simp at hf⟩
  | step w e _ he ih =>
    obtain ⟨p, hp, hm, ht, htm, hgl⟩ := ih
    obtain ⟨q, hq, k1, k2, k3, k4, k5⟩ := step_kept env w e p he hp
    exact ⟨q, hq, by rw [k2]; exact hm, by rw [k4]; exact ht, by rw [k3]; exact htm, k5 hgl⟩

theorem load_finish_texture (env : Env) (p : MPVPlayer) (tr : List Ev) (fl : List Fault) :
    (load_finish env p tr fl).1.texture = (load_resize env p tr fl).1.texture ∧
    (load_finish env p tr fl).1.frame_w = (load_resize env p tr fl).1.frame_w ∧
    (load_finish env p tr fl).1.frame_h = (load_resize env p tr fl).1.frame_h := by
  simp only [load_finish]
  generalize load_resize env p tr fl = a
  have B := init_mpv_render_context_fields env a.1 a.2.1
  generalize init_mpv_render_context env a.1 a.2.1 = b at B ⊢
  generalize poll_video env 50 b.2 = c
  have D := init_mpv_render_context_fields env b.1 c.1
  generalize init_mpv_render_context env b.1 c.1 = d at D ⊢
  obtain ⟨b1, b2, b3, b4, b5, b6, b7⟩ := B
  obtain ⟨d1, d2, d3, d4, d5, d6, d7⟩ := D
  cases hc : c.2
  · simp only [Bool.false_eq_true, if_false]
    exact ⟨b2, b6, b7⟩
  · simp only [if_true]
    exact ⟨d2.trans b2, d6.trans b6, d7.trans b7⟩

theorem method_load_success (env : Env) (args : FlArgs) (url : String) (w : World)
    (p : MPVPlayer) (hp : w.g_player = some p)
    (h_url : fl_value_lookup_string args "url" = some url)
    (h_ok : (method_load env args w).1 = FlMethodResponse.success none) :
    p.mpv.isSome = true ∧ 0 ≤ (env (load_cmd_trace url w)).rc ∧
    (method_load env args w).2 =
      { w with g_player := some (load_finish env p (load_cmd_trace url w) w.faults).1,
               trace := (load_finish env p (load_cmd_trace url w) w.faults).2.1,
               faults := (load_finish env p (load_cmd_trace url w) w.faults).2.2 } := by
  unfold method_load at h_ok ⊢
  rw [hp] at h_ok ⊢
  dsimp only at h_ok ⊢
  by_cases h1 : p.mpv.isNone = true
  · rw [if_pos h1] at h_ok; simp at h_ok
  · rw [if_neg h1] at h_ok ⊢
    rw [h_url] at h_ok ⊢
    dsimp only at h_ok ⊢
    by_cases h2 : (env (hls_tuning url w.trace ++ [Ev.mpv_command ["loadfile", url]])).rc < 0
    · rw [if_pos h2] at h_ok; simp at h_ok
    · rw [if_neg h2]
      refine ⟨?_, not_lt.mp h2, ?_⟩
      · cases hm : p.mpv <;> simp_all
      · simp only [load_cmd_trace, hp]

theorem load_resize_resized (env : Env) (p : MPVPlayer) (t : MPVPixelTexture) (tr : List Ev)
    (fl : List Fault) (ht : p.texture = some t)
    (h_wrc : 0 ≤ (env (tr ++ [Ev.mpv_get_property "width"])).rc)
    (h_hrc : 0 ≤ (env (tr ++ [Ev.mpv_get_property "width"] ++
      [Ev.mpv_get_property "height"])).rc)
    (h_w : 0 < (env (tr ++ [Ev.mpv_get_property "width"])).ival)
    (h_h : 0 < (env (tr ++ [Ev.mpv_get_property "width"] ++
      [Ev.mpv_get_property "height"])).ival)
    (h_ne : (env (tr ++ [Ev.mpv_get_property "width"])).ival ≠ p.frame_w ∨
      (env (tr ++ [Ev.mpv_get_property "width"] ++ [Ev.mpv_get_property "height"])).ival ≠
        p.frame_h) :
    (load_resize env p tr fl).1.texture = some
      { t with
        width := wrap32 (env (tr ++ [Ev.mpv_get_property "width"])).ival,
        height := wrap32 (env (tr ++ [Ev.mpv_get_property "width"] ++
          [Ev.mpv_get_property "height"])).ival,
        pixels := some (List.replicate
          (toSize ((env (tr ++ [Ev.mpv_get_property "width"])).ival *
            (env (tr ++ [Ev.mpv_get_property "width"] ++
              [Ev.mpv_get_property "height"])).ival * 4)) 0) } ∧
    (load_resize env p tr fl).1.frame_w =
      wrap32 (env (tr ++ [Ev.mpv_get_property "width"])).ival ∧
    (load_resize env p tr fl).1.frame_h =
      wrap32 (env (tr ++ [Ev.mpv_get_property "width"] ++
        [Ev.mpv_get_property "height"])).ival := by
  simp only [load_resize]
  rw [if_neg (not_lt.mpr h_wrc), if_pos ⟨h_hrc, h_w, h_h⟩, if_pos h_ne, ht]
  exact ⟨rfl, rfl, rfl⟩

theorem wrap32_id (x : Int) (h0 : 0 ≤ x) (h1 : x < 2147483648) : wrap32 x = x := by
  unfold wrap32; omega

theorem toU32_id (x : Int) (h0 : 0 ≤ x) (h1 : x < 2147483648) : toU32 x = x.toNat := by
  unfold toU32
  rw [Int.emod_eq_of_lt h0 (by omega)]

theorem toSize_frame (x y : Int) (hx0 : 0 < x) (hx1 : x < 2147483648) (hy0 : 0 < y)
    (hy1 : y < 2147483648) : toSize (x * y * 4) = x.toNat * y.toNat * 4 := by
  unfold toSize
  have h1 : 0 ≤ x * y * 4 := by positivity
  have h2 : x * y * 4 < 18446744073709551616 := by nlinarith
  rw [Int.emod_eq_of_lt h1 h2]
  have hx : x = (x.toNat : Int) := (Int.toNat_of_nonneg hx0.le).symm
  have hy : y = (y.toNat : Int) := (Int.toNat_of_nonneg hy0.le).symm
  rw [hx, hy]
  norm_cast

/-- C5 (amended). On a live session, for every successful `load` in which the engine
reports a width `w` and a height `h` that are positive, fit an `int` (below `2^31`) and
differ from the session's current frame size: afterwards the pixel block has length exactly
`w*h*4`, the texture's width/height and the session's `frame_w`/`frame_h` all equal
`(w, h)`, `mpv_pixel_texture_copy_pixels` with the ready flag set returns that block with
width `w` and height `h`, and whatever the ready flag, the length of the data it returns is
the reported `width*height*4`. -/
theorem load_resize_consistent (env : Env) (args : FlArgs) (url : String) (w : World)
    (p : MPVPlayer)
    (h_live : Session env w) (hp : w.g_player = some p)
    (h_url : fl_value_lookup_string args "url" = some url)
    (h_ok : (method_load env args w).1 = FlMethodResponse.success none)
    (h_wrc : 0 ≤ (width_reply env url w).rc) (h_hrc : 0 ≤ (height_reply env url w).rc)
    (h_w : 0 < (width_reply env url w).ival) (h_w31 : (width_reply env url w).ival < 2147483648)
    (h_h : 0 < (height_reply env url w).ival)
    (h_h31 : (height_reply env url w).ival < 2147483648)
    (h_ne : (width_reply env url w).ival ≠ p.frame_w ∨
      (height_reply env url w).ival ≠ p.frame_h) :
    ∃ q t blk, (method_load env args w).2.g_player = some q ∧ q.texture = some t ∧
      t.pixels = some blk ∧
      blk.length = (width_reply env url w).ival.toNat * (height_reply env url w).ival.toNat * 4 ∧
      t.width = (width_reply env url w).ival ∧ t.height = (height_reply env url w).ival ∧
      q.frame_w = (width_reply env url w).ival ∧ q.frame_h = (height_reply env url w).ival ∧
      (mpv_pixel_texture_copy_pixels { t with frame_ready := true }).1 =
        { ok := true, out_buffer := blk, width := (width_reply env url w).ival.toNat,
          height := (height_reply env url w).ival.toNat } ∧
      (mpv_pixel_texture_copy_pixels t).1.out_buffer.length =
        (mpv_pixel_texture_copy_pixels t).1.width *
          (mpv_pixel_texture_copy_pixels t).1.height * 4 := by
  obtain ⟨p2, hp2, _, ht, _, _⟩ := session_live env w h_live
  rw [hp] at hp2
  cases Option.some.inj hp2
  obtain ⟨t0, ht0⟩ := Option.isSome_iff_exists.mp ht
  obtain ⟨_, _, hW⟩ := method_load_success env args url w p hp h_url h_ok
  obtain ⟨r1, r2, r3⟩ := load_resize_resized env p t0 (load_cmd_trace url w) w.faults ht0
    h_wrc h_hrc h_w h_h h_ne
  obtain ⟨f1, f2, f3⟩ := load_finish_texture env p (load_cmd_trace url w) w.faults
  have e1 : env (load_cmd_trace url w ++ [Ev.mpv_get_property "width"]) =
      width_reply env url w := rfl
  have e2 : env (load_cmd_trace url w ++ [Ev.mpv_get_property "width"] ++
      [Ev.mpv_get_property "height"]) = height_reply env url w := rfl
  simp only [e1, e2] at r1 r2 r3
  generalize width_reply env url w = rw at *
  generalize height_reply env url w = rh at *
  rw [wrap32_id _ h_w.le h_w31, wrap32_id _ h_h.le h_h31, toSize_frame _ _ h_w h_w31 h_h h_h31]
    at r1
  rw [wrap32_id _ h_w.le h_w31] at r2
  rw [wrap32_id _ h_h.le h_h31] at r3
  refine ⟨_, _, _, by rw [hW], f1.trans r1, rfl, by simp, rfl, rfl, f2.trans r2, f3.trans r3,
    ?_, ?_⟩
  · simp [mpv_pixel_texture_copy_pixels, toU32_id _ h_w.le h_w31, toU32_id _ h_h.le h_h31]
  · simp only [mpv_pixel_texture_copy_pixels]
    cases t0.frame_ready
    · simp [black]
    · simp [toU32_id _ h_w.le h_w31, toU32_id _ h_h.le h_h31]

theorem load_resize_consistent_witness :
    Session (Env.video 640 360) (method_init (Env.video 640 360) (some 7) World.boot).2 ∧
    (width_reply (Env.video 640 360) "a.mp4"
      (method_init (Env.video 640 360) (some 7) World.boot).2).ival = 640 ∧
    (height_reply (Env.video 640 360) "a.mp4"
      (method_init (Env.video 640 360) (some 7) World.boot).2).ival = 360 ∧
    ∃ q t blk, (method_load (Env.video 640 360) [("url", "a.mp4")]
        (method_init (Env.video 640 360) (some 7) World.boot).2).2.g_player = some q ∧
      q.texture = some t ∧ t.pixels = some blk ∧ blk.length = 640 * 360 * 4 ∧
      t.width = 640 ∧ t.height = 360 ∧ q.frame_w = 640 ∧ q.frame_h = 360 :=
  ⟨Session.init (some 7) World.boot (some 0) rfl, rfl, rfl,
    (load_resize_consistent (Env.video 640 360) [("url", "a.mp4")] "a.mp4"
      (method_init (Env.video 640 360) (some 7) World.boot).2 (first_player (some 7))
      (Session.init (some 7) World.boot (some 0) rfl) rfl rfl rfl
      (by decide) (by decide) (by decide) (by decide) (by decide) (by decide)
      (Or.inl (by decide))).imp
      (fun _ h => h.imp (fun _ h2 => h2.imp (fun _ h3 =>
        ⟨h3.1, h3.2.1, h3.2.2.1, h3.2.2.2.1, h3.2.2.2.2.1, h3.2.2.2.2.2.1, h3.2.2.2.2.2.2.1,
          h3.2.2.2.2.2.2.2.1⟩)))⟩

/-- C5 (as stated) fails: the engine reports a video of 4294967297 x 1 to a freshly
initialised session, the load succeeds, and afterwards `frame_w` and the texture width are
1, not the reported width, while the pixel block has 17179869188 bytes; with the ready flag
set `mpv_pixel_texture_copy_pixels` returns that block with width 1 and height 1, so the
data length is not the reported `width*height*4`. -/
theorem load_resize_truncates :
    Session (Env.video 4294967297 1)
      (method_init (Env.video 4294967297 1) (some 7) World.boot).2 ∧
    (method_load (Env.video 4294967297 1) [("url", "a.mp4")]
      (method_init (Env.video 4294967297 1) (some 7) World.boot).2).1 =
        FlMethodResponse.success none ∧
    (width_reply (Env.video 4294967297 1) "a.mp4"
      (method_init (Env.video 4294967297 1) (some 7) World.boot).2).ival = 4294967297 ∧
    (height_reply (Env.video 4294967297 1) "a.mp4"
      (method_init (Env.video 4294967297 1) (some 7) World.boot).2).ival = 1 ∧
    ∃ q t blk, (method_load (Env.video 4294967297 1) [("url", "a.mp4")]
        (method_init (Env.video 4294967297 1) (some 7) World.boot).2).2.g_player = some q ∧
      q.texture = some t ∧ t.pixels = some blk ∧
      q.frame_w = 1 ∧ t.width = 1 ∧ t.height = 1 ∧ blk.length = 17179869188 ∧
      (mpv_pixel_texture_copy_pixels { t with frame_ready := true }).1 =
        { ok := true, out_buffer := blk, width := 1, height := 1 } ∧
      (mpv_pixel_texture_copy_pixels { t with frame_ready := true }).1.out_buffer.length ≠
        (mpv_pixel_texture_copy_pixels { t with frame_ready := true }).1.width *
          (mpv_pixel_texture_copy_pixels { t with frame_ready := true }).1.height * 4 := by
  refine ⟨Session.init (some 7) World.boot (some 0) rfl, rfl, rfl, rfl, ?_⟩
  obtain ⟨_, _, hW⟩ := method_load_success (Env.video 4294967297 1) [("url", "a.mp4")] "a.mp4"
    (method_init (Env.video 4294967297 1) (some 7) World.boot).2 (first_player (some 7))
    rfl rfl rfl
  obtain ⟨r1, r2, r3⟩ := load_resize_resized (Env.video 4294967297 1) (first_player (some 7))
    (mpv_pixel_texture_new 1920 1080).1
    (load_cmd_trace "a.mp4" (method_init (Env.video 4294967297 1) (some 7) World.boot).2)
    (method_init (Env.video 4294967297 1) (some 7) World.boot).2.faults rfl
    (by decide) (by decide) (by decide) (by decide) (Or.inl (by decide))
  obtain ⟨f1, f2, f3⟩ := load_finish_texture (Env.video 4294967297 1) (first_player (some 7))
    (load_cmd_trace "a.mp4" (method_init (Env.video 4294967297 1) (some 7) World.boot).2)
    (method_init (Env.video 4294967297 1) (some 7) World.boot).2.faults
  have hw : wrap32 4294967297 = 1 := by decide
  have hh : wrap32 1 = 1 := by decide
  have hs : toSize (4294967297 * 1 * 4) = 17179869188 := by decide
  refine ⟨_, _, _, by rw [hW], f1.trans r1, rfl, f2.trans (r2.trans hw), hw, hh, ?_, ?_, ?_⟩
  · rw [List.length_replicate]; exact hs
  · simp only [mpv_pixel_texture_copy_pixels]
    simp only [Bool.not_true, Bool.false_eq_true, if_false]
    exact congrArg₂ (CopyResult.mk true _) (by decide) (by decide)
  · simp only [mpv_pixel_texture_copy_pixels]
    simp only [Bool.not_true, Bool.false_eq_true, if_false, List.length_replicate]
    decide

/-! ## C6: a load that finds no video track -/

theorem init_mpv_render_context_fresh (env : Env) (p : MPVPlayer) (tr : List Ev)
    (h : p.render_context_ready = false) :
    ((env (render_context_calls env tr)).rc < 0 →
      (init_mpv_render_context env p tr).1 = { p with mpv_gl := none }) ∧
    (0 ≤ (env (render_context_calls env tr)).rc →
      (init_mpv_render_context env p tr).1 =
        { p with mpv_gl := some ((env (render_context_calls env tr)).ptr.getD 0),
                 render_context_ready := true }) := by
  unfold init_mpv_render_context
  constructor
  · intro h2; simp [h, h2]
  · intro h2; simp [h, not_lt.mpr h2]

theorem load_finish_novideo (env : Env) (p : MPVPlayer) (tr : List Ev) (fl : List Fault)
    (h_ready : p.render_context_ready = false)
    (h_poll : (load_poll env p tr fl).2 = false) :
    ((create_reply env p tr fl).rc < 0 →
      (load_finish env p tr fl).1 = { (load_resize env p tr fl).1 with mpv_gl := none }) ∧
    (0 ≤ (create_reply env p tr fl).rc →
      (load_finish env p tr fl).1 =
        { (load_resize env p tr fl).1 with
          mpv_gl := some ((create_reply env p tr fl).ptr.getD 0),
          render_context_ready := true }) := by
  have hr : (load_resize env p tr fl).1.render_context_ready = false := by
    rw [(load_resize_fields env p tr fl).2.2.2.2.1]; exact h_ready
  have F := init_mpv_render_context_fresh env (load_resize env p tr fl).1
    (load_resize env p tr fl).2.1 hr
  have hfin : (load_finish env p tr fl).1 =
      (init_mpv_render_context env (load_resize env p tr fl).1
        (load_resize env p tr fl).2.1).1 := by
    unfold load_poll at h_poll
    simp only [load_finish, h_poll, Bool.false_eq_true, if_false]
  rw [hfin]
  exact F

/-- C6 (amended). On a freshly initialised session, if the engine accepts the `loadfile`
command and `load` finds no video track in any of its 50 polls, `load` still returns
success. The render context was requested before the polls, by the unconditional call of
`init_mpv_render_context`: when the engine's `mpv_render_context_create` succeeded, the
context is present, `render_context_ready` is true and a decode signal enqueues a render
task; only when that call failed are the context absent and the flag false, and then decode
signals and render passes are no-ops. -/
theorem novideo_load (env : Env) (registrar : Option Nat) (w0 : World)
    (result : Option Int) (args : FlArgs) (url : String) (p : MPVPlayer)
    (h_init : (method_init env registrar w0).1 = FlMethodResponse.success result)
    (hp : (method_init env registrar w0).2.g_player = some p)
    (h_url : fl_value_lookup_string args "url" = some url)
    (h_cmd : 0 ≤ (env (load_cmd_trace url (method_init env registrar w0).2)).rc)
    (h_poll : (load_poll env p (load_cmd_trace url (method_init env registrar w0).2)
      (method_init env registrar w0).2.faults).2 = false) :
    (method_load env args (method_init env registrar w0).2).1 = FlMethodResponse.success none ∧
    ∃ q, (method_load env args (method_init env registrar w0).2).2.g_player = some q ∧
      (0 ≤ (create_reply env p (load_cmd_trace url (method_init env registrar w0).2)
          (method_init env registrar w0).2.faults).rc →
        q.render_context_ready = true ∧ q.mpv_gl.isSome = true ∧
        pending_renders (render_update_callback (some q.addr)
          (method_load env args (method_init env registrar w0).2).2) =
          pending_renders (method_load env args (method_init env registrar w0).2).2 + 1) ∧
      ((create_reply env p (load_cmd_trace url (method_init env registrar w0).2)
          (method_init env registrar w0).2.faults).rc < 0 →
        q.render_context_ready = false ∧ q.mpv_gl = none ∧
        render_update_callback (some q.addr)
          (method_load env args (method_init env registrar w0).2).2 =
          (method_load env args (method_init env registrar w0).2).2 ∧
        try_render_frame env (some q.addr)
          (method_load env args (method_init env registrar w0).2).2 =
          (false, (method_load env args (method_init env registrar w0).2).2)) := by
  obtain ⟨_, p2, hp2, _, hm, _, htex, _, _, _, _, _, hrdy, _, hreq, _⟩ :=
    method_init_success env registrar w0 result h_init
  rw [hp] at hp2
  cases Option.some.inj hp2
  generalize method_init env registrar w0 = iw at *
  obtain ⟨m, hm2⟩ := Option.isSome_iff_exists.mp hm
  have hload : method_load env args iw.2 =
      (FlMethodResponse.success none,
        { iw.2 with
          g_player := some (load_finish env p (load_cmd_trace url iw.2) iw.2.faults).1,
          trace := (load_finish env p (load_cmd_trace url iw.2) iw.2.faults).2.1,
          faults := (load_finish env p (load_cmd_trace url iw.2) iw.2.faults).2.2 }) := by
    have hc : ¬ (env (hls_tuning url iw.2.trace ++ [Ev.mpv_command ["loadfile", url]])).rc < 0 :=
      not_lt.mpr h_cmd
    rw [method_load, hp]
    simp only [hm2, h_url, Option.isNone_some, Bool.false_eq_true, if_false, hc, load_cmd_trace]
  obtain ⟨n1, n2⟩ := load_finish_novideo env p (load_cmd_trace url iw.2) iw.2.faults hrdy h_poll
  obtain ⟨a1, a2, a3, a4, a5, a6, a7⟩ := load_resize_fields env p (load_cmd_trace url iw.2)
    iw.2.faults
  have htx : (load_resize env p (load_cmd_trace url iw.2) iw.2.faults).1.texture.isSome = true := by
    rw [a7, htex]; rfl
  obtain ⟨t, ht⟩ := Option.isSome_iff_exists.mp htx
  rw [hload]
  refine ⟨rfl, _, rfl, ?_, ?_⟩
  · intro hrc
    have e := n2 hrc
    refine ⟨by rw [e], by rw [e]; rfl, ?_⟩
    have hq : (load_finish env p (load_cmd_trace url iw.2) iw.2.faults).1.render_requested =
        false := by rw [e]; dsimp only; rw [a2]; exact hreq
    have hqt : (load_finish env p (load_cmd_trace url iw.2) iw.2.faults).1.texture = some t := by
      rw [e]; exact ht
    have hqr : (load_finish env p (load_cmd_trace url iw.2) iw.2.faults).1.render_context_ready =
        true := by rw [e]
    rw [render_update_callback, deref_live _ _ rfl]
    simp [hq, hqt, hqr, World.g_idle_add, pending_renders, List.countP_append]
  · intro hrc
    have e := n1 hrc
    have hqr : (load_finish env p (load_cmd_trace url iw.2) iw.2.faults).1.render_context_ready =
        false := by rw [e]; dsimp only; rw [a5]; exact hrdy
    have hqt : (load_finish env p (load_cmd_trace url iw.2) iw.2.faults).1.texture = some t := by
      rw [e]; exact ht
    refine ⟨hqr, by rw [e], ?_, ?_⟩
    · rw [render_update_callback, deref_live _ _ rfl]
      simp [hqr]
    · rw [try_render_frame, deref_live _ _ rfl]
      simp [hqr, hqt]

theorem novideo_load_witness :
    (method_init Env.no_context (some 7) World.boot).1 = FlMethodResponse.success (some 0) ∧
    (load_poll Env.no_context (first_player (some 7))
      (load_cmd_trace "a.mp4" (method_init Env.no_context (some 7) World.boot).2)
      (method_init Env.no_context (some 7) World.boot).2.faults).2 = false ∧
    (create_reply Env.no_context (first_player (some 7))
      (load_cmd_trace "a.mp4" (method_init Env.no_context (some 7) World.boot).2)
      (method_init Env.no_context (some 7) World.boot).2.faults).rc < 0 ∧
    (method_load Env.no_context [("url", "a.mp4")]
      (method_init Env.no_context (some 7) World.boot).2).1 = FlMethodResponse.success none ∧
    ∃ q, (method_load Env.no_context [("url", "a.mp4")]
        (method_init Env.no_context (some 7) World.boot).2).2.g_player = some q ∧
      q.render_context_ready = false ∧ q.mpv_gl = none :=
  ⟨rfl, rfl, by decide,
    (novideo_load Env.no_context (some 7) World.boot (some 0) [("url", "a.mp4")] "a.mp4"
      (first_player (some 7)) rfl rfl rfl (by decide) rfl).1,
    (novideo_load Env.no_context (some 7) World.boot (some 0) [("url", "a.mp4")] "a.mp4"
      (first_player (some 7)) rfl rfl rfl (by decide) rfl).2.imp
      (fun _ h => ⟨h.1, (h.2.2 (by decide)).1, (h.2.2 (by decide)).2.1⟩)⟩

/-- C6 (as stated) fails: with an engine that answers every call with success and lists no
track, `load` on a freshly initialised session finds no video track in its 50 polls and
returns success, yet afterwards the render context is present, `render_context_ready` is
true, and a decode signal enqueues a render task. -/
theorem novideo_render_active :
    (method_init Env.ok (some 7) World.boot).1 = FlMethodResponse.success (some 0) ∧
    (load_poll Env.ok (first_player (some 7))
      (load_cmd_trace "a.mp4" (method_init Env.ok (some 7) World.boot).2)
      (method_init Env.ok (some 7) World.boot).2.faults).2 = false ∧
    (method_load Env.ok [("url", "a.mp4")]
      (method_init Env.ok (some 7) World.boot).2).1 = FlMethodResponse.success none ∧
    ∃ q, (method_load Env.ok [("url", "a.mp4")]
        (method_init Env.ok (some 7) World.boot).2).2.g_player = some q ∧
      q.render_context_ready = true ∧ q.mpv_gl.isSome = true ∧
      pending_renders (render_update_callback (some q.addr)
        (method_load Env.ok [("url", "a.mp4")] (method_init Env.ok (some 7) World.boot).2).2) =
        pending_renders (method_load Env.ok [("url", "a.mp4")]
          (method_init Env.ok (some 7) World.boot).2).2 + 1 :=
  ⟨rfl, rfl, rfl, loaded_player (some 7), rfl, rfl, rfl, rfl⟩

/-! ## C7: the outcome of a render pass -/

/-- C7. For every render pass (`try_render_frame` on the session's player) on a live
session whose render context is ready: if the engine's render returns a negative result
(the invalid-parameter code included), the pass leaves the ready flag of the frame buffer as
it was and enqueues nothing, neither a notify task nor a retry; if the result is
non-negative, the pass sets the ready flag and enqueues exactly one notify task. In both
cases `render_requested` is false when the pass ends, and the pass returns
`G_SOURCE_REMOVE`. -/
theorem render_pass_outcome (env : Env) (w : World) (p : MPVPlayer)
    (h_live : Session env w) (hp : w.g_player = some p)
    (h_ready : p.render_context_ready = true) :
    (try_render_frame env (some p.addr) w).1 = false ∧
    ∃ t q t2, p.texture = some t ∧
      (try_render_frame env (some p.addr) w).2.g_player = some q ∧ q.texture = some t2 ∧
      q.render_requested = false ∧
      ((render_reply env w p).rc < 0 →
        t2.frame_ready = t.frame_ready ∧
        (try_render_frame env (some p.addr) w).2.idle = w.idle) ∧
      (0 ≤ (render_reply env w p).rc →
        t2.frame_ready = true ∧
        (try_render_frame env (some p.addr) w).2.idle =
          w.idle ++ [⟨IdleFn.notify_frame_available, some p.addr⟩] ∧
        pending_notifies (try_render_frame env (some p.addr) w).2 = pending_notifies w + 1 ∧
        pending_renders (try_render_frame env (some p.addr) w).2 = pending_renders w) := by
  obtain ⟨p2, hp2, _, ht, _, hgl⟩ := session_live env w h_live
  rw [hp] at hp2
  cases Option.some.inj hp2
  obtain ⟨t, htx⟩ := Option.isSome_iff_exists.mp ht
  obtain ⟨g, hg⟩ := Option.isSome_iff_exists.mp (hgl h_ready)
  refine ⟨try_render_frame_removed env _ w, ?_⟩
  by_cases hrc : 0 ≤ (render_reply env w p).rc
  · have e := try_render_frame_ok env w p t g hp htx hg h_ready hrc
    rw [e]
    refine ⟨t, _, _, htx, rfl, rfl, rfl, fun hneg => absurd hrc (not_le.mpr hneg), fun _ =>
      ⟨rfl, rfl, ?_, ?_⟩⟩
    · simp [pending_notifies, List.countP_append]
    · simp [pending_renders, List.countP_append]
  · have e := try_render_frame_err env w p t g hp htx hg h_ready (not_le.mp hrc)
    rw [e]
    exact ⟨t, _, _, htx, rfl, rfl, rfl, fun _ => ⟨rfl, rfl⟩, fun hpos => absurd hpos hrc⟩

theorem render_pass_outcome_witness :
    Session Env.ok (step Env.ok (method_init Env.ok (some 7) World.boot).2
      (Event.call (some 7) "load" [("url", "a.mp4")])) ∧
    (loaded_player (some 7)).render_context_ready = true ∧
    0 ≤ (render_reply Env.ok (step Env.ok (method_init Env.ok (some 7) World.boot).2
      (Event.call (some 7) "load" [("url", "a.mp4")])) (loaded_player (some 7))).rc ∧
    ∃ q t2, (try_render_frame Env.ok (some (loaded_player (some 7)).addr)
        (step Env.ok (method_init Env.ok (some 7) World.boot).2
          (Event.call (some 7) "load" [("url", "a.mp4")]))).2.g_player = some q ∧
      q.texture = some t2 ∧ q.render_requested = false ∧ t2.frame_ready = true ∧
      pending_notifies (try_render_frame Env.ok (some (loaded_player (some 7)).addr)
        (step Env.ok (method_init Env.ok (some 7) World.boot).2
          (Event.call (some 7) "load" [("url", "a.mp4")]))).2 = 1 := by
  obtain ⟨_, _, q, t2, _, h1, h2, h3, _, h5⟩ := render_pass_outcome Env.ok
    (step Env.ok (method_init Env.ok (some 7) World.boot).2
      (Event.call (some 7) "load" [("url", "a.mp4")]))
    (loaded_player (some 7))
    (Session.step _ _ (Session.init (some 7) World.boot (some 0) rfl) rfl) rfl rfl
  have hrc : 0 ≤ (render_reply Env.ok (step Env.ok (method_init Env.ok (some 7) World.boot).2
      (Event.call (some 7) "load" [("url", "a.mp4")])) (loaded_player (some 7))).rc := by
    decide
  exact ⟨Session.step _ _ (Session.init (some 7) World.boot (some 0) rfl) rfl, rfl, hrc,
    q, t2, h1, h2, h3, (h5 hrc).1, (h5 hrc).2.2.1⟩

/-! ## C8: the order of releases in `dispose`, and `init` after it -/

theorem method_init_fresh (env : Env) (registrar : Option Nat) (w : World) (h : Nat)
    (hnone : w.g_player = none)
    (h_create : (env (init_create_trace w)).ptr = some h)
    (h_engine_init : 0 ≤ (env (init_initialize_trace w)).rc) :
    method_init env registrar w =
      (FlMethodResponse.success (some (env (w.trace ++ (mpv_pixel_texture_new 1920 1080).2 ++
          [Ev.fl_texture_registrar_register_texture])).ival),
       { w with
         g_player := some
           { addr := w.allocs, mpv := some h, mpv_gl := none,
             texture := some { pixels := some (List.replicate 8294400 0), width := 1920,
                               height := 1080, frame_ready := false },
             registrar := registrar,
             texture_id := (env (w.trace ++ (mpv_pixel_texture_new 1920 1080).2 ++
               [Ev.fl_texture_registrar_register_texture])).ival,
             timer_id := w.next_source + 1, frame_w := 1920, frame_h := 1080,
             initialized := true, render_context_ready := false, frame_count := 0,
             render_requested := false },
         trace := init_initialize_trace w ++ [Ev.g_timeout_add 33],
         next_source := w.next_source + 1,
         allocs := w.allocs + 1 }) := by
  have hsz : toSize (1920 * 1080 * 4) = 8294400 := by decide
  have h1920 : wrap32 1920 = 1920 := by decide
  have h1080 : wrap32 1080 = 1080 := by decide
  unfold init_initialize_trace init_create_trace at h_engine_init
  unfold init_create_trace at h_create
  unfold method_init
  rw [hnone]
  dsimp only
  rw [h_create]
  dsimp only
  rw [if_neg (not_lt.mpr h_engine_init)]
  simp only [init_initialize_trace, init_create_trace, mpv_pixel_texture_new,
    mpv_pixel_texture_init, hsz, h1920, h1080]

/-- C8. `dispose` on a live session returns success and makes its releases in this order:
it stops the status timer, frees the render context (only if there is one), destroys the
engine handle, releases the texture with its frame buffer, frees the player, and leaves the
process-wide session reference cleared. An `init` issued after it is therefore not rejected
as already initialised, and when engine creation and initialisation succeed it returns
success with a fresh session: a zeroed 1920x1080 buffer that is not ready, frame counter 0,
no pending render request, no render context and the context not ready. -/
theorem dispose_then_init (env env2 : Env) (registrar2 : Option Nat) (w : World)
    (p : MPVPlayer) (h : Nat)
    (h_live : Session env w) (hp : w.g_player = some p) :
    (method_dispose w).1 = FlMethodResponse.success none ∧
    (method_dispose w).2.trace = w.trace ++
      ([Ev.g_source_remove p.timer_id] ++
       (if p.mpv_gl.isSome then [Ev.mpv_render_context_free] else []) ++
       [Ev.mpv_destroy, Ev.g_object_unref_texture, Ev.g_free_player]) ∧
    (method_dispose w).2.g_player = none ∧
    (method_init env2 registrar2 (method_dispose w).2).1 ≠
      FlMethodResponse.error "ALREADY" "already initialized" ∧
    ((env2 (init_create_trace (method_dispose w).2)).ptr = some h →
      0 ≤ (env2 (init_initialize_trace (method_dispose w).2)).rc →
      ∃ q, (method_init env2 registrar2 (method_dispose w).2).1 =
          FlMethodResponse.success (some q.texture_id) ∧
        (method_init env2 registrar2 (method_dispose w).2).2.g_player = some q ∧
        q.texture = some { pixels := some (List.replicate (1920 * 1080 * 4) 0), width := 1920,
                           height := 1080, frame_ready := false } ∧
        q.frame_w = 1920 ∧ q.frame_h = 1080 ∧ q.frame_count = 0 ∧
        q.render_requested = false ∧ q.render_context_ready = false ∧ q.mpv_gl = none ∧
        q.mpv = some h) := by
  obtain ⟨p2, hp2, hm, ht, htm, _⟩ := session_live env w h_live
  rw [hp] at hp2
  cases Option.some.inj hp2
  have hd : method_dispose w = (FlMethodResponse.success none,
      { w with g_player := none, trace := w.trace ++ dispose_calls p }) := by
    rw [method_dispose, hp]
  have hcalls : dispose_calls p = [Ev.g_source_remove p.timer_id] ++
      (if p.mpv_gl.isSome then [Ev.mpv_render_context_free] else []) ++
      [Ev.mpv_destroy, Ev.g_object_unref_texture, Ev.g_free_player] := by
    unfold dispose_calls
    simp [htm, hm, ht]
  rw [hd]
  refine ⟨rfl, by rw [hcalls], rfl, ?_, ?_⟩
  · unfold method_init
    dsimp only
    split
    · simp
    · split_ifs <;> simp
  · intro h_create h_engine_init
    rw [method_init_fresh env2 registrar2 _ h rfl h_create h_engine_init]
    exact ⟨_, rfl, rfl, rfl, rfl, rfl, rfl, rfl, rfl, rfl, rfl⟩

theorem dispose_then_init_witness :
    Session Env.ok (step Env.ok (method_init Env.ok (some 7) World.boot).2
      (Event.call (some 7) "load" [("url", "a.mp4")])) ∧
    (method_dispose (step Env.ok (method_init Env.ok (some 7) World.boot).2
      (Event.call (some 7) "load" [("url", "a.mp4")]))).2.trace =
      (step Env.ok (method_init Env.ok (some 7) World.boot).2
        (Event.call (some 7) "load" [("url", "a.mp4")])).trace ++
      [Ev.g_source_remove 1, Ev.mpv_render_context_free, Ev.mpv_destroy,
        Ev.g_object_unref_texture, Ev.g_free_player] ∧
    (method_init Env.ok (some 8) (method_dispose (step Env.ok
      (method_init Env.ok (some 7) World.boot).2
      (Event.call (some 7) "load" [("url", "a.mp4")]))).2).1 ≠
      FlMethodResponse.error "ALREADY" "already initialized" :=
  ⟨Session.step _ _ (Session.init (some 7) World.boot (some 0) rfl) rfl,
    (dispose_then_init Env.ok Env.ok (some 8)
      (step Env.ok (method_init Env.ok (some 7) World.boot).2
        (Event.call (some 7) "load" [("url", "a.mp4")]))
      (loaded_player (some 7)) 1
      (Session.step _ _ (Session.init (some 7) World.boot (some 0) rfl) rfl) rfl).2.1,
    (dispose_then_init Env.ok Env.ok (some 8)
      (step Env.ok (method_init Env.ok (some 7) World.boot).2
        (Event.call (some 7) "load" [("url", "a.mp4")]))
      (loaded_player (some 7)) 1
      (Session.step _ _ (Session.init (some 7) World.boot (some 0) rfl) rfl) rfl).2.2.2.1⟩

/-! ## C9: the consumer's copy -/

/-- C9. `mpv_pixel_texture_copy_pixels` always succeeds. Whenever the ready flag is false
or there is no pixel block it returns the fixed 1x1 opaque black pixel (bytes 0,0,0,255)
with width 1 and height 1; whenever there is a block and the flag is set it returns that
block with the buffer's width and height (as `uint32_t` values, equal to the `int` fields
whenever these are not negative). It only locks and unlocks the mutex, and a copy request
leaves the player, the frame buffer included, unchanged. -/
theorem copy_pixels_total (env : Env) (w : World) (t : MPVPixelTexture) (blk : List Nat) :
    (mpv_pixel_texture_copy_pixels t).1.ok = true ∧
    (t.pixels = none ∨ t.frame_ready = false →
      (mpv_pixel_texture_copy_pixels t).1 =
        { ok := true, out_buffer := [0, 0, 0, 255], width := 1, height := 1 }) ∧
    (t.pixels = some blk → t.frame_ready = true →
      (mpv_pixel_texture_copy_pixels t).1 =
        { ok := true, out_buffer := blk, width := toU32 t.width, height := toU32 t.height } ∧
      (0 ≤ t.width → t.width < 2147483648 →
        ((mpv_pixel_texture_copy_pixels t).1.width : Int) = t.width) ∧
      (0 ≤ t.height → t.height < 2147483648 →
        ((mpv_pixel_texture_copy_pixels t).1.height : Int) = t.height)) ∧
    (mpv_pixel_texture_copy_pixels t).2 = [Ev.g_mutex_lock, Ev.g_mutex_unlock] ∧
    (step env w Event.copy_pixels).g_player = w.g_player ∧
    (step env w Event.copy_pixels).idle = w.idle ∧
    (step env w Event.copy_pixels).faults = w.faults := by
  refine ⟨?_, ?_, ?_, ?_, ?_, ?_, ?_⟩
  · unfold mpv_pixel_texture_copy_pixels
    rcases t.pixels with _ | b
    · rfl
    · dsimp only; split_ifs <;> rfl
  · intro h
    unfold mpv_pixel_texture_copy_pixels
    rcases hpx : t.pixels with _ | b
    · rfl
    · rcases h with h | h
      · rw [hpx] at h; simp at h
      · simp [h, black]
  · intro hpx hr
    have e : (mpv_pixel_texture_copy_pixels t).1 =
        { ok := true, out_buffer := blk, width := toU32 t.width, height := toU32 t.height } := by
      unfold mpv_pixel_texture_copy_pixels
      rw [hpx]
      simp [hr]
    refine ⟨e, ?_, ?_⟩
    · intro h0 h1
      rw [e]
      simp only [toU32]
      rw [Int.emod_eq_of_lt h0 (by omega), Int.toNat_of_nonneg h0]
    · intro h0 h1
      rw [e]
      simp only [toU32]
      rw [Int.emod_eq_of_lt h0 (by omega), Int.toNat_of_nonneg h0]
  · unfold mpv_pixel_texture_copy_pixels
    rcases t.pixels with _ | b
    · rfl
    · dsimp only; split_ifs <;> rfl
  all_goals
    simp only [step]
    rcases hg : w.g_player with _ | p
    · simp [hg]
    · rcases ht : p.texture with _ | t2 <;> simp [hg, ht]

theorem copy_pixels_total_witness :
    (mpv_pixel_texture_copy_pixels
      { pixels := some [9, 8, 7, 255, 1, 2, 3, 255], width := 2, height := 1,
        frame_ready := true }).1 =
      { ok := true, out_buffer := [9, 8, 7, 255, 1, 2, 3, 255], width := 2, height := 1 } ∧
    (mpv_pixel_texture_copy_pixels
      { pixels := some [9, 8, 7, 255, 1, 2, 3, 255], width := 2, height := 1,
        frame_ready := false }).1 =
      { ok := true, out_buffer := [0, 0, 0, 255], width := 1, height := 1 } :=
  ⟨((copy_pixels_total Env.ok World.boot
      { pixels := some [9, 8, 7, 255, 1, 2, 3, 255], width := 2, height := 1,
        frame_ready := true } [9, 8, 7, 255, 1, 2, 3, 255]).2.2.1 rfl rfl).1,
    (copy_pixels_total Env.ok World.boot
      { pixels := some [9, 8, 7, 255, 1, 2, 3, 255], width := 2, height := 1,
        frame_ready := false } []).2.1 (Or.inr rfl)⟩

/-! ## C10: what happens while the pixel mutex is held -/

theorem held_calls_append (a b : List Ev) :
    ∀ held : Bool, held_calls held (a ++ b) =
      held_calls held a ++ held_calls (held_after held a) b := by
  induction a with
  | nil => intro held; simp [held_calls, held_after]
  | cons e es ih =>
    intro held
    cases e <;> simp only [List.cons_append, held_calls, held_after] <;>
      (try split_ifs) <;> simp [ih]

theorem held_after_append (a b : List Ev) :
    ∀ held : Bool, held_after held (a ++ b) = held_after (held_after held a) b := by
  induction a with
  | nil => intro held; simp [held_after]
  | cons e es ih =>
    intro held
    cases e <;> simp only [List.cons_append, held_after] <;> simp [ih]

theorem quiet_nil : Quiet [] := ⟨rfl, rfl⟩

theorem quiet_append (a b : List Ev) (ha : Quiet a) (hb : Quiet b) : Quiet (a ++ b) := by
  obtain ⟨a1, a2⟩ := ha
  obtain ⟨b1, b2⟩ := hb
  exact ⟨by rw [held_calls_append, a1, a2, b1]; rfl, by rw [held_after_append, a2, b2]⟩

theorem quiet_single (e : Ev) (h1 : e ≠ Ev.g_mutex_lock) : Quiet [e] := by
  cases e <;> first | exact absurd rfl h1 | exact ⟨rfl, rfl⟩

theorem quietExt_refl (tr : List Ev) : QuietExt tr tr := ⟨[], by simp, quiet_nil⟩

theorem quietExt_trans (a b c : List Ev) (h1 : QuietExt a b) (h2 : QuietExt b c) :
    QuietExt a c := by
  obtain ⟨s1, e1, q1⟩ := h1
  obtain ⟨s2, e2, q2⟩ := h2
  exact ⟨s1 ++ s2, by rw [e2, e1, List.append_assoc], quiet_append s1 s2 q1 q2⟩

theorem quietExt_seg (tr seg : List Ev) (h : Quiet seg) : QuietExt tr (tr ++ seg) :=
  ⟨seg, rfl, h⟩

theorem quietExt_emitted (tr tr2 : List Ev) (h : QuietExt tr tr2) :
    held_calls false (tr2.drop tr.length) = [] ∧ held_after false (tr2.drop tr.length) = false := by
  obtain ⟨seg, e, q⟩ := h
  rw [e, List.drop_left]
  exact q

theorem quietExt_snoc (tr : List Ev) (e : Ev) (h : e ≠ Ev.g_mutex_lock) :
    QuietExt tr (tr ++ [e]) := quietExt_seg tr [e] (quiet_single e h)

theorem track_print_ext (n : Nat) : ∀ (i : Nat) (tr : List Ev), QuietExt tr (track_print n i tr) := by
  induction n with
  | zero => intro i tr; exact quietExt_refl tr
  | succ n ih =>
    intro i tr
    rw [track_print]
    exact quietExt_trans _ _ _ (quietExt_snoc tr _ (by simp)) (ih (i + 1) _)

theorem render_context_calls_ext (env : Env) (tr : List Ev) :
    QuietExt tr (render_context_calls env tr) := by
  simp only [render_context_calls]
  have h1 : QuietExt tr (tr ++ [Ev.mpv_set_property_string "vo" "null",
      Ev.mpv_set_property_string "hwdec" "no", Ev.mpv_set_property_string "vd-lavc-dr" "no",
      Ev.mpv_set_property_string "keep-open" "yes"]) := quietExt_seg tr _ ⟨rfl, rfl⟩
  have h2 := quietExt_snoc (tr ++ [Ev.mpv_set_property_string "vo" "null",
      Ev.mpv_set_property_string "hwdec" "no", Ev.mpv_set_property_string "vd-lavc-dr" "no",
      Ev.mpv_set_property_string "keep-open" "yes"]) (Ev.mpv_get_property "track-list/count")
      (by simp)
  exact quietExt_trans _ _ _ h1 (quietExt_trans _ _ _ h2
    (quietExt_trans _ _ _ (track_print_ext _ 0 _) (quietExt_snoc _ _ (by simp))))

theorem init_mpv_render_context_ext (env : Env) (p : MPVPlayer) (tr : List Ev) :
    QuietExt tr (init_mpv_render_context env p tr).2 := by
  unfold init_mpv_render_context
  by_cases h1 : p.render_context_ready = true
  · simp only [h1, if_true]; exact quietExt_refl tr
  · by_cases h2 : (env (render_context_calls env tr)).rc < 0
    · simp only [h1, h2, if_true, Bool.false_eq_true, if_false]
      exact render_context_calls_ext env tr
    · simp only [h1, h2, Bool.false_eq_true, if_false]
      exact quietExt_trans _ _ _ (render_context_calls_ext env tr) (quietExt_snoc _ _ (by simp))

theorem track_scan_ext (env : Env) (n : Nat) :
    ∀ (i : Nat) (tr : List Ev) (found : Bool), QuietExt tr (track_scan env n i tr found).1 := by
  induction n with
  | zero => intro i tr found; exact quietExt_refl tr
  | succ n ih =>
    intro i tr found
    rw [track_scan]
    exact quietExt_trans _ _ _ (quietExt_snoc tr _ (by simp)) (ih (i + 1) _ _)

theorem poll_video_ext (env : Env) (n : Nat) :
    ∀ tr : List Ev, QuietExt tr (poll_video env n tr).1 := by
  induction n with
  | zero => intro tr; exact quietExt_refl tr
  | succ n ih =>
    intro tr
    rw [poll_video]
    have hs : QuietExt tr
        (if 0 ≤ (env (tr ++ [Ev.mpv_get_property "track-list/count"])).rc then
          track_scan env (env (tr ++ [Ev.mpv_get_property "track-list/count"])).ival.toNat 0
            (tr ++ [Ev.mpv_get_property "track-list/count"]) false
         else (tr ++ [Ev.mpv_get_property "track-list/count"], false)).1 := by
      split_ifs
      · exact quietExt_trans _ _ _ (quietExt_snoc tr _ (by simp)) (track_scan_ext env _ 0 _ _)
      · exact quietExt_snoc tr _ (by simp)
    generalize (if 0 ≤ (env (tr ++ [Ev.mpv_get_property "track-list/count"])).rc then
        track_scan env (env (tr ++ [Ev.mpv_get_property "track-list/count"])).ival.toNat 0
          (tr ++ [Ev.mpv_get_property "track-list/count"]) false
       else (tr ++ [Ev.mpv_get_property "track-list/count"], false)) = s at hs ⊢
    split_ifs
    · exact hs
    · exact quietExt_trans _ _ _ hs (quietExt_trans _ _ _ (quietExt_snoc _ _ (by simp)) (ih _))

theorem load_resize_ext (env : Env) (p : MPVPlayer) (tr : List Ev) (fl : List Fault) :
    QuietExt tr (load_resize env p tr fl).2.1 := by
  have hw : QuietExt tr (tr ++ [Ev.mpv_get_property "width"]) := quietExt_snoc tr _ (by simp)
  have hh : QuietExt tr (tr ++ [Ev.mpv_get_property "width"] ++ [Ev.mpv_get_property "height"]) :=
    quietExt_trans _ _ _ hw (quietExt_snoc _ _ (by simp))
  simp only [load_resize]
  rcases ht : p.texture with _ | t <;> split_ifs
  all_goals first
    | exact hw
    | exact hh
    | exact quietExt_trans _ _ _ hh (quietExt_seg _ _ ⟨rfl, rfl⟩)

theorem load_finish_ext (env : Env) (p : MPVPlayer) (tr : List Ev) (fl : List Fault) :
    QuietExt tr (load_finish env p tr fl).2.1 := by
  simp only [load_finish]
  have A := load_resize_ext env p tr fl
  have B := init_mpv_render_context_ext env (load_resize env p tr fl).1 (load_resize env p tr fl).2.1
  have C := poll_video_ext env 50
    (init_mpv_render_context env (load_resize env p tr fl).1 (load_resize env p tr fl).2.1).2
  have ABC := quietExt_trans _ _ _ A (quietExt_trans _ _ _ B C)
  split_ifs
  · exact quietExt_trans _ _ _ ABC (init_mpv_render_context_ext env _ _)
  · exact ABC

theorem hls_tuning_ext (url : String) (tr : List Ev) : QuietExt tr (hls_tuning url tr) := by
  unfold hls_tuning
  split_ifs
  · exact quietExt_seg tr _ ⟨rfl, rfl⟩
  · exact quietExt_refl tr

theorem method_load_ext (env : Env) (args : FlArgs) (w : World) :
    QuietExt w.trace (method_load env args w).2.trace := by
  unfold method_load
  rcases w.g_player with _ | p
  · exact quietExt_refl _
  · dsimp only
    by_cases h1 : p.mpv.isNone = true
    · rw [if_pos h1]; exact quietExt_refl _
    · rw [if_neg h1]
      rcases fl_value_lookup_string args "url" with _ | url
      · exact quietExt_refl _
      · dsimp only
        have hc : QuietExt w.trace
            (hls_tuning url w.trace ++ [Ev.mpv_command ["loadfile", url]]) :=
          quietExt_trans _ _ _ (hls_tuning_ext url w.trace) (quietExt_snoc _ _ (by simp))
        split_ifs
        · exact hc
        · exact quietExt_trans _ _ _ hc (load_finish_ext env p _ w.faults)

theorem try_render_frame_trace (env : Env) (user_data : Option Nat) (w : World) :
    ∃ seg, (try_render_frame env user_data w).2.trace = w.trace ++ seg ∧
      (seg = [] ∨ ∃ a b c,
        seg = [Ev.g_mutex_lock, Ev.mpv_render_context_render a b c, Ev.g_mutex_unlock] ∨
        seg = [Ev.g_mutex_lock, Ev.mpv_render_context_render a b c,
          Ev.g_idle_add IdleFn.notify_frame_available, Ev.g_mutex_unlock]) := by
  unfold try_render_frame
  cases w.deref user_data with
  | null => exact ⟨[], by simp, Or.inl rfl⟩
  | dangling => exact ⟨[], by simp, Or.inl rfl⟩
  | live p =>
    dsimp only
    cases p.texture with
    | none => exact ⟨[], by simp, Or.inl rfl⟩
    | some t =>
      dsimp only
      split_ifs
      · exact ⟨[], by simp, Or.inl rfl⟩
      · exact ⟨[Ev.g_mutex_lock,
            Ev.mpv_render_context_render p.frame_w p.frame_h (wrap32 (p.frame_w * 4)),
            Ev.g_idle_add IdleFn.notify_frame_available, Ev.g_mutex_unlock],
          by simp [World.g_idle_add], Or.inr ⟨_, _, _, Or.inr rfl⟩⟩
      · exact ⟨[Ev.g_mutex_lock,
            Ev.mpv_render_context_render p.frame_w p.frame_h (wrap32 (p.frame_w * 4)),
            Ev.g_mutex_unlock], by simp, Or.inr ⟨_, _, _, Or.inl rfl⟩⟩

/-- C10 (amended). The pixel mutex is never held across a call into the presentation host
or across an engine command or property call. The one engine operation made under the
mutex is the render of the render pass, which writes into the locked buffer: in every
execution of `try_render_frame` the engine and host calls made while the mutex is held are
that single render call, or none when the pass returns early; in every execution of
`method_load` (its resize step included) and of `mpv_pixel_texture_copy_pixels` there is
none. Each of the three releases the mutex before it returns. -/
theorem lock_discipline (env : Env) (w : World) (user_data : Option Nat) (args : FlArgs)
    (t : MPVPixelTexture) :
    (held_calls false (emitted w (try_render_frame env user_data w).2) = [] ∨
      ∃ a b c, held_calls false (emitted w (try_render_frame env user_data w).2) =
        [Ev.mpv_render_context_render a b c]) ∧
    held_after false (emitted w (try_render_frame env user_data w).2) = false ∧
    held_calls false (emitted w (method_load env args w).2) = [] ∧
    held_after false (emitted w (method_load env args w).2) = false ∧
    held_calls false (mpv_pixel_texture_copy_pixels t).2 = [] ∧
    held_after false (mpv_pixel_texture_copy_pixels t).2 = false := by
  obtain ⟨seg, hseg, hcase⟩ := try_render_frame_trace env user_data w
  have hem : emitted w (try_render_frame env user_data w).2 = seg := by
    rw [emitted, hseg, List.drop_left]
  have hload := quietExt_emitted _ _ (method_load_ext env args w)
  have hcopy : (mpv_pixel_texture_copy_pixels t).2 = [Ev.g_mutex_lock, Ev.g_mutex_unlock] := by
    unfold mpv_pixel_texture_copy_pixels
    rcases t.pixels with _ | b
    · rfl
    · dsimp only; split_ifs <;> rfl
  rw [hem, hcopy]
  refine ⟨?_, ?_, hload.1, hload.2, rfl, rfl⟩
  · rcases hcase with h | ⟨a, b, c, h | h⟩
    · left; rw [h]; rfl
    · right; exact ⟨a, b, c, by rw [h]; rfl⟩
    · right; exact ⟨a, b, c, by rw [h]; rfl⟩
  · rcases hcase with h | ⟨a, b, c, h | h⟩ <;> rw [h] <;> rfl

/-- C10 (as stated) fails: in a render pass on a loaded session the engine's render
operation is called between the acquisition of the pixel mutex and its release. -/
theorem render_under_lock :
    emitted (step Env.ok (method_init Env.ok (some 7) World.boot).2
        (Event.call (some 7) "load" [("url", "a.mp4")]))
      (try_render_frame Env.ok (some 0)
        (step Env.ok (method_init Env.ok (some 7) World.boot).2
          (Event.call (some 7) "load" [("url", "a.mp4")]))).2 =
      [Ev.g_mutex_lock, Ev.mpv_render_context_render 1920 1080 7680,
        Ev.g_idle_add IdleFn.notify_frame_available, Ev.g_mutex_unlock] ∧
    held_calls false (emitted (step Env.ok (method_init Env.ok (some 7) World.boot).2
        (Event.call (some 7) "load" [("url", "a.mp4")]))
      (try_render_frame Env.ok (some 0)
        (step Env.ok (method_init Env.ok (some 7) World.boot).2
          (Event.call (some 7) "load" [("url", "a.mp4")]))).2) =
      [Ev.mpv_render_context_render 1920 1080 7680] := by
  have e := try_render_frame_ok Env.ok
    (step Env.ok (method_init Env.ok (some 7) World.boot).2
      (Event.call (some 7) "load" [("url", "a.mp4")]))
    (loaded_player (some 7)) (mpv_pixel_texture_new 1920 1080).1 1 rfl rfl rfl rfl (by decide)
  have h0 : (loaded_player (some 7)).addr = 0 := rfl
  rw [h0] at e
  have hem : emitted (step Env.ok (method_init Env.ok (some 7) World.boot).2
        (Event.call (some 7) "load" [("url", "a.mp4")]))
      (try_render_frame Env.ok (some 0)
        (step Env.ok (method_init Env.ok (some 7) World.boot).2
          (Event.call (some 7) "load" [("url", "a.mp4")]))).2 =
      [Ev.g_mutex_lock, Ev.mpv_render_context_render 1920 1080 7680,
        Ev.g_idle_add IdleFn.notify_frame_available, Ev.g_mutex_unlock] := by
    rw [e, emitted]
    dsimp only
    rw [List.drop_left]
    rfl
  exact ⟨hem, by rw [hem]; rfl⟩

/-! ## C11: the indices of the post-render sanity check -/

theorem blit_length (bytes : List Nat) : ∀ old : List Nat, (blit bytes old).length = old.length := by
  induction bytes with
  | nil => intro old; rfl
  | cons b bs ih =>
    intro old
    cases old with
    | nil => rfl
    | cons o os => simp [blit, ih]

theorem blit_nil (old : List Nat) : blit [] old = old := by
  cases old <;> rfl

theorem checksum_fold_faults (px : List Nat) (l : List Int) :
    ∀ acc : Nat × List Fault,
      (l.foldl (fun (acc : Nat × List Fault) (i : Int) =>
        ((acc.1 + (peek px i).1) % 4294967296, acc.2 ++ (peek px i).2)) acc).2 =
        acc.2 ++ l.flatMap (fun i => (peek px i).2) := by
  induction l with
  | nil => intro acc; simp
  | cons i is ih => intro acc; simp [List.foldl_cons, ih, List.flatMap_cons]

theorem checksum_loop_faults (px : List Nat) :
    (checksum_loop px).2 = (List.range 1000).flatMap (fun i => (peek px (i : Int)).2) := by
  unfold checksum_loop
  rw [checksum_fold_faults]
  simp [List.flatMap_assoc]

theorem checksum_loop_oob (px : List Nat) (h : px.length < 1000) :
    Fault.oob_read px.length ∈ (checksum_loop px).2 := by
  rw [checksum_loop_faults, List.mem_flatMap]
  refine ⟨px.length, List.mem_range.mpr h, ?_⟩
  simp [peek]

theorem checksum_loop_safe (px : List Nat) (h : 1000 ≤ px.length) :
    (checksum_loop px).2 = [] := by
  rw [checksum_loop_faults, List.flatMap_eq_nil_iff]
  intro i hi
  have hi2 := List.mem_range.mp hi
  have : (i : Int) < px.length := by omega
  simp [peek, this]

theorem poke_length (st : List Nat × List Fault) (i : Int) (v : Nat) :
    (poke st i v).1.length = st.1.length := by
  unfold poke
  split_ifs <;> simp

theorem poke_mono (st : List Nat × List Fault) (i : Int) (v : Nat) (f : Fault)
    (h : f ∈ st.2) : f ∈ (poke st i v).2 := by
  unfold poke
  split_ifs
  · exact h
  · exact List.mem_append_left _ h

theorem poke_oob (st : List Nat × List Fault) (i : Int) (v : Nat)
    (h : ¬ (0 ≤ i ∧ i < st.1.length)) : Fault.oob_write i ∈ (poke st i v).2 := by
  unfold poke
  rw [if_neg h]
  simp

theorem poke_safe (st : List Nat × List Fault) (i : Int) (v : Nat)
    (h : 0 ≤ i ∧ i < st.1.length) : (poke st i v).2 = st.2 := by
  unfold poke
  rw [if_pos h]

theorem overlay_cell_length (frame_w : Int) (st : List Nat × List Fault) (y x : Nat) :
    (overlay_cell frame_w st y x).1.length = st.1.length := by
  simp only [overlay_cell, poke_length]

theorem overlay_cell_mono (frame_w : Int) (st : List Nat × List Fault) (y x : Nat) (f : Fault)
    (h : f ∈ st.2) : f ∈ (overlay_cell frame_w st y x).2 := by
  simp only [overlay_cell]
  exact poke_mono _ _ _ f (poke_mono _ _ _ f (poke_mono _ _ _ f (poke_mono _ _ _ f h)))

theorem overlay_cell_oob (frame_w : Int) (st : List Nat × List Fault) (y x : Nat)
    (h : ¬ (0 ≤ wrap32 (wrap32 ((y * frame_w + x) * 4) + 0) ∧
      wrap32 (wrap32 ((y * frame_w + x) * 4) + 0) < st.1.length)) :
    Fault.oob_write (wrap32 (wrap32 ((y * frame_w + x) * 4) + 0)) ∈
      (overlay_cell frame_w st y x).2 := by
  simp only [overlay_cell]
  exact poke_mono _ _ _ _ (poke_mono _ _ _ _ (poke_mono _ _ _ _ (poke_oob st _ 255 h)))

theorem overlay_row_length (frame_w : Int) (y : Nat) (l : List Nat) :
    ∀ st : List Nat × List Fault,
      (l.foldl (fun s2 x => overlay_cell frame_w s2 y x) st).1.length = st.1.length := by
  induction l with
  | nil => intro st; rfl
  | cons x xs ih => intro st; rw [List.foldl_cons, ih, overlay_cell_length]

theorem overlay_row_mono (frame_w : Int) (y : Nat) (l : List Nat) (f : Fault) :
    ∀ st : List Nat × List Fault, f ∈ st.2 →
      f ∈ (l.foldl (fun s2 x => overlay_cell frame_w s2 y x) st).2 := by
  induction l with
  | nil => intro st h; exact h
  | cons x xs ih =>
    intro st h
    rw [List.foldl_cons]
    exact ih _ (overlay_cell_mono frame_w st y x f h)

theorem overlay_row_oob (frame_w : Int) (y x : Nat) (n : Nat) (l : List Nat) (hx : x ∈ l)
    (h : ¬ (0 ≤ wrap32 (wrap32 ((y * frame_w + x) * 4) + 0) ∧
      wrap32 (wrap32 ((y * frame_w + x) * 4) + 0) < (n : Int))) :
    ∀ st : List Nat × List Fault, st.1.length = n →
      Fault.oob_write (wrap32 (wrap32 ((y * frame_w + x) * 4) + 0)) ∈
        (l.foldl (fun s2 x => overlay_cell frame_w s2 y x) st).2 := by
  induction l with
  | nil => simp at hx
  | cons z zs ih =>
    intro st hn
    rw [List.foldl_cons]
    rcases List.mem_cons.mp hx with hz | hz
    · subst hz
      exact overlay_row_mono frame_w y zs _ _ (overlay_cell_oob frame_w st y x (by rw [hn]; exact h))
    · exact ih hz _ (by rw [overlay_cell_length, hn])

theorem overlay_rows_length (frame_w : Int) (ys l : List Nat) :
    ∀ st : List Nat × List Fault,
      (ys.foldl (fun s y => l.foldl (fun s2 x => overlay_cell frame_w s2 y x) s) st).1.length =
        st.1.length := by
  induction ys with
  | nil => intro st; rfl
  | cons y ys ih => intro st; rw [List.foldl_cons, ih, overlay_row_length]

theorem overlay_rows_mono (frame_w : Int) (ys l : List Nat) (f : Fault) :
    ∀ st : List Nat × List Fault, f ∈ st.2 →
      f ∈ (ys.foldl (fun s y => l.foldl (fun s2 x => overlay_cell frame_w s2 y x) s) st).2 := by
  induction ys with
  | nil => intro st h; exact h
  | cons y ys ih =>
    intro st h
    rw [List.foldl_cons]
    exact ih _ (overlay_row_mono frame_w y l f st h)

theorem overlay_rows_oob (frame_w : Int) (y x : Nat) (n : Nat) (ys l : List Nat)
    (hy : y ∈ ys) (hx : x ∈ l)
    (h : ¬ (0 ≤ wrap32 (wrap32 ((y * frame_w + x) * 4) + 0) ∧
      wrap32 (wrap32 ((y * frame_w + x) * 4) + 0) < (n : Int))) :
    ∀ st : List Nat × List Fault, st.1.length = n →
      Fault.oob_write (wrap32 (wrap32 ((y * frame_w + x) * 4) + 0)) ∈
        (ys.foldl (fun s y => l.foldl (fun s2 x => overlay_cell frame_w s2 y x) s) st).2 := by
  induction ys with
  | nil => simp at hy
  | cons z zs ih =>
    intro st hn
    rw [List.foldl_cons]
    rcases List.mem_cons.mp hy with hz | hz
    · subst hz
      exact overlay_rows_mono frame_w zs l _ _ (overlay_row_oob frame_w y x n l hx h st hn)
    · exact ih hz _ (by rw [overlay_row_length, hn])

theorem sanity_check_oob_read (frame_w : Int) (px : List Nat) (h : px.length < 1000) :
    Fault.oob_read px.length ∈ (sanity_check frame_w px).2 := by
  have hr := checksum_loop_oob px h
  simp only [sanity_check, overlay]
  generalize checksum_loop px = c at hr ⊢
  split_ifs
  · exact overlay_rows_mono frame_w (List.range 100) (List.range 100) _ (px, c.2) hr
  · exact hr

theorem sanity_check_oob_write (frame_w : Int) (px : List Nat) (y x : Nat)
    (hy : y < 100) (hx : x < 100) (hsum : (checksum_loop px).1 < 1000)
    (h : ¬ (0 ≤ wrap32 (wrap32 ((y * frame_w + x) * 4) + 0) ∧
      wrap32 (wrap32 ((y * frame_w + x) * 4) + 0) < (px.length : Int))) :
    Fault.oob_write (wrap32 (wrap32 ((y * frame_w + x) * 4) + 0)) ∈
      (sanity_check frame_w px).2 := by
  simp only [sanity_check, overlay]
  generalize checksum_loop px = c at hsum ⊢
  rw [if_pos hsum]
  exact overlay_rows_oob frame_w y x px.length (List.range 100) (List.range 100)
    (List.mem_range.mpr hy) (List.mem_range.mpr hx) h (px, c.2) rfl

theorem checksum_fold_zero (px : List Nat) (hz : ∀ i : Int, (peek px i).1 = 0) (l : List Int) :
    ∀ acc : Nat × List Fault, acc.1 = 0 →
      (l.foldl (fun (acc : Nat × List Fault) (i : Int) =>
        ((acc.1 + (peek px i).1) % 4294967296, acc.2 ++ (peek px i).2)) acc).1 = 0 := by
  induction l with
  | nil => intro acc h; exact h
  | cons i is ih =>
    intro acc h
    rw [List.foldl_cons]
    exact ih _ (by simp [h, hz i])

theorem checksum_loop_zero (px : List Nat) (hz : ∀ b ∈ px, b = 0) :
    (checksum_loop px).1 = 0 := by
  unfold checksum_loop
  apply checksum_fold_zero px _ _ _ rfl
  intro i
  unfold peek
  split_ifs with h
  · rw [List.getD_eq_getElem?_getD]
    rcases hg : px[i.toNat]? with _ | b
    · rfl
    · exact hz b (List.getElem?_mem hg)
  · rfl

theorem overlay_cell_safe (frame_w : Int) (st : List Nat × List Fault) (y x n : Nat)
    (hw : 0 ≤ frame_w) (hy : y < 100) (hx : x < 100)
    (hn : (99 * frame_w + 99) * 4 + 3 < n) (h31 : (n : Int) ≤ 2147483648)
    (hlen : st.1.length = n) :
    (overlay_cell frame_w st y x).2 = st.2 := by
  have hv1 : (y : Int) * frame_w ≤ 99 * frame_w :=
    mul_le_mul_of_nonneg_right (by omega) hw
  have hv0 : 0 ≤ (y : Int) * frame_w := mul_nonneg (by omega) hw
  simp only [overlay_cell]
  generalize (y : Int) * frame_w = v at hv0 hv1 ⊢
  have e0 : wrap32 (wrap32 ((v + x) * 4) + 0) = (v + x) * 4 := by unfold wrap32; omega
  have e1 : wrap32 (wrap32 ((v + x) * 4) + 1) = (v + x) * 4 + 1 := by unfold wrap32; omega
  have e2 : wrap32 (wrap32 ((v + x) * 4) + 2) = (v + x) * 4 + 2 := by unfold wrap32; omega
  have e3 : wrap32 (wrap32 ((v + x) * 4) + 3) = (v + x) * 4 + 3 := by unfold wrap32; omega
  simp only [e0, e1, e2, e3]
  rw [poke_safe _ _ _ (by simp only [poke_length, hlen]; omega),
    poke_safe _ _ _ (by simp only [poke_length, hlen]; omega),
    poke_safe _ _ _ (by simp only [poke_length, hlen]; omega),
    poke_safe _ _ _ (by rw [hlen]; omega)]

theorem overlay_row_safe (frame_w : Int) (y n : Nat) (l : List Nat)
    (hw : 0 ≤ frame_w) (hy : y < 100) (hl : ∀ x ∈ l, x < 100)
    (hn : (99 * frame_w + 99) * 4 + 3 < n) (h31 : (n : Int) ≤ 2147483648) :
    ∀ st : List Nat × List Fault, st.1.length = n →
      (l.foldl (fun s2 x => overlay_cell frame_w s2 y x) st).2 = st.2 := by
  induction l with
  | nil => intro st _; rfl
  | cons x xs ih =>
    intro st hlen
    rw [List.foldl_cons,
      ih (fun z hz => hl z (List.mem_cons_of_mem _ hz)) _ (by rw [overlay_cell_length, hlen]),
      overlay_cell_safe frame_w st y x n hw hy (hl x (List.mem_cons_self _ _)) hn h31 hlen]

theorem overlay_rows_safe (frame_w : Int) (n : Nat) (ys l : List Nat)
    (hw : 0 ≤ frame_w) (hys : ∀ y ∈ ys, y < 100) (hl : ∀ x ∈ l, x < 100)
    (hn : (99 * frame_w + 99) * 4 + 3 < n) (h31 : (n : Int) ≤ 2147483648) :
    ∀ st : List Nat × List Fault, st.1.length = n →
      (ys.foldl (fun s y => l.foldl (fun s2 x => overlay_cell frame_w s2 y x) s) st).2 =
        st.2 := by
  induction ys with
  | nil => intro st _; rfl
  | cons y ys ih =>
    intro st hlen
    rw [List.foldl_cons,
      ih (fun z hz => hys z (List.mem_cons_of_mem _ hz)) _ (by rw [overlay_row_length, hlen]),
      overlay_row_safe frame_w y n l hw (hys y (List.mem_cons_self _ _)) hl hn h31 st hlen]

theorem sanity_check_safe (frame_w : Int) (px : List Nat) (hw : 0 ≤ frame_w)
    (h1000 : 1000 ≤ px.length) (hn : (99 * frame_w + 99) * 4 + 3 < px.length)
    (h31 : (px.length : Int) ≤ 2147483648) :
    (sanity_check frame_w px).2 = [] ∧ (sanity_check frame_w px).1.length = px.length := by
  have hc := checksum_loop_safe px h1000
  simp only [sanity_check, overlay]
  generalize checksum_loop px = c at hc ⊢
  split_ifs
  · refine ⟨?_, overlay_rows_length frame_w (List.range 100) (List.range 100) (px, c.2)⟩
    rw [overlay_rows_safe frame_w px.length (List.range 100) (List.range 100) hw
      (fun y hy => List.mem_range.mp hy) (fun x hx => List.mem_range.mp hx) hn h31 (px, c.2) rfl]
    exact hc
  · exact ⟨hc, rfl⟩

theorem render_pass_in_bounds (env : Env) (w : World) (p : MPVPlayer) (t : MPVPixelTexture)
    (blk : List Nat) (g width height : Nat)
    (hp : w.g_player = some p) (ht : p.texture = some t) (hblk : t.pixels = some blk)
    (hgl : p.mpv_gl = some g) (hrdy : p.render_context_ready = true)
    (hfw : p.frame_w = width) (hlen : blk.length = width * height * 4)
    (hw : 100 ≤ width) (hh : 100 ≤ height) (h31 : width * height * 4 ≤ 2147483648) :
    (try_render_frame env (some p.addr) w).2.faults = w.faults := by
  by_cases hrc : 0 ≤ (env (w.trace ++ [Ev.g_mutex_lock,
      Ev.mpv_render_context_render p.frame_w p.frame_h (wrap32 (p.frame_w * 4))])).rc
  · rw [try_render_frame_ok env w p t g hp ht hgl hrdy hrc]
    have hmul : width * 100 ≤ width * height := Nat.mul_le_mul_left _ hh
    have hpx : (blit (env (w.trace ++ [Ev.g_mutex_lock, Ev.mpv_render_context_render
        p.frame_w p.frame_h (wrap32 (p.frame_w * 4))])).bytes (t.pixels.getD [])).length =
        width * height * 4 := by
      rw [blit_length, hblk, Option.getD_some, hlen]
    have hs := sanity_check_safe p.frame_w _ (by rw [hfw]; omega) (by rw [hpx]; omega)
      (by rw [hpx, hfw]; push_cast; omega) (by rw [hpx]; push_cast; omega)
    show w.faults ++ _ = w.faults
    rw [hs.1, List.append_nil]
  · rw [try_render_frame_err env w p t g hp ht hgl hrdy (lt_of_not_le hrc)]

theorem sanity_check_small_read (px : List Nat) (hl : px.length = 256) :
    Fault.oob_read 256 ∈ (sanity_check 8 px).2 := by
  have h := sanity_check_oob_read 8 px (by omega)
  rw [hl] at h
  exact h

theorem sanity_check_small_write (px : List Nat) (hl : px.length = 256)
    (hz : ∀ b ∈ px, b = 0) : Fault.oob_write 256 ∈ (sanity_check 8 px).2 := by
  have hidx : wrap32 (wrap32 ((((0 : Nat) : Int) * 8 + ((64 : Nat) : Int)) * 4) + 0) = 256 := by
    decide
  have h := sanity_check_oob_write 8 px 0 64 (by omega) (by omega)
    (by rw [checksum_loop_zero px hz]; omega) (by rw [hidx, hl]; omega)
  rw [hidx] at h
  exact h

/-- C11 fails on the code. The engine reports an 8 x 8 video to a freshly initialised
session, `load` installs the 256-byte block, and the render pass that follows succeeds: its
checksum loop reads `pixels[256]` (and on to `pixels[999]`), outside the block, and since the
block is all zero the overlay writes `pixels[256]`, outside the block as well. No fault had
occurred before the pass. -/
theorem sanity_check_out_of_bounds :
    (run (Env.video 8 8) World.boot
      [Event.call (some 7) "init" [], Event.call (some 7) "load" [("url", "a.mp4")]]).g_player =
      some (small_player (some 7)) ∧
    (run (Env.video 8 8) World.boot
      [Event.call (some 7) "init" [], Event.call (some 7) "load" [("url", "a.mp4")]]).faults =
      [] ∧
    0 ≤ (render_reply (Env.video 8 8) (run (Env.video 8 8) World.boot
      [Event.call (some 7) "init" [], Event.call (some 7) "load" [("url", "a.mp4")]])
      (small_player (some 7))).rc ∧
    Fault.oob_read 256 ∈ (try_render_frame (Env.video 8 8) (some 0)
      (run (Env.video 8 8) World.boot
        [Event.call (some 7) "init" [],
          Event.call (some 7) "load" [("url", "a.mp4")]])).2.faults ∧
    Fault.oob_write 256 ∈ (try_render_frame (Env.video 8 8) (some 0)
      (run (Env.video 8 8) World.boot
        [Event.call (some 7) "init" [],
          Event.call (some 7) "load" [("url", "a.mp4")]])).2.faults := by
  have hp : (run (Env.video 8 8) World.boot
      [Event.call (some 7) "init" [], Event.call (some 7) "load" [("url", "a.mp4")]]).g_player =
      some (small_player (some 7)) := rfl
  have hrc : 0 ≤ (render_reply (Env.video 8 8) (run (Env.video 8 8) World.boot
      [Event.call (some 7) "init" [], Event.call (some 7) "load" [("url", "a.mp4")]])
      (small_player (some 7))).rc := by decide
  have e := try_render_frame_ok (Env.video 8 8) _ (small_player (some 7))
    { pixels := some (List.replicate 256 0), width := 8, height := 8, frame_ready := false } 1
    hp rfl rfl rfl hrc
  have h0 : (small_player (some 7)).addr = 0 := rfl
  rw [h0] at e
  have hbytes : (Env.video 8 8 ((run (Env.video 8 8) World.boot
      [Event.call (some 7) "init" [], Event.call (some 7) "load" [("url", "a.mp4")]]).trace ++
      [Ev.g_mutex_lock, Ev.mpv_render_context_render (small_player (some 7)).frame_w
        (small_player (some 7)).frame_h (wrap32 ((small_player (some 7)).frame_w * 4))])).bytes =
      [] := rfl
  rw [hbytes] at e
  refine ⟨hp, rfl, hrc, ?_, ?_⟩
  · rw [e]
    exact List.mem_append_right _ (sanity_check_small_read _
      (by simp only [blit_nil, Option.getD_some, List.length_replicate]))
  · rw [e]
    exact List.mem_append_right _ (sanity_check_small_write _
      (by simp only [blit_nil, Option.getD_some, List.length_replicate])
      (by simp only [blit_nil, Option.getD_some]; intro b hb; exact List.eq_of_mem_replicate hb))

end MpvPlugin
